import Mathlib

/-!
# LC-3 emulator: a shallow embedding of `main.c`

The machine state of the C program (the globals `memory`, `reg`, `instr`,
`running`, together with the two console streams) is one record; every C
function becomes a Lean function on that record.  Machine words are natural
numbers; every store into a `uint16_t` object reduces modulo `65536`.

`memory` is declared as `uint16_t memory[UINT16_MAX]`, so it has `65535`
cells, indexed `0 .. 65534`.  Indexing is embedded as a total operation with
an explicit out-of-bounds branch (`Fault.outOfBounds`).
-/

namespace LC3

/-! ## Constants -/

def REG_MASK : Nat := 0b111
def UINT16_MAX : Nat := 65535

def R_R0 : Nat := 0
def R_R1 : Nat := 1
def R_R2 : Nat := 2
def R_R3 : Nat := 3
def R_R4 : Nat := 4
def R_R5 : Nat := 5
def R_R6 : Nat := 6
def R_R7 : Nat := 7
def R_PC : Nat := 8
def R_COND : Nat := 9
def R_COUNT : Nat := 10

def OP_BR : Nat := 0
def OP_ADD : Nat := 1
def OP_LD : Nat := 2
def OP_ST : Nat := 3
def OP_JSR : Nat := 4
def OP_AND : Nat := 5
def OP_LDR : Nat := 6
def OP_STR : Nat := 7
def OP_RTI : Nat := 8
def OP_NOT : Nat := 9
def OP_LDI : Nat := 10
def OP_STI : Nat := 11
def OP_JMP : Nat := 12
def OP_RES : Nat := 13
def OP_LEA : Nat := 14
def OP_TRAP : Nat := 15

def FL_POS : Nat := 0b001
def FL_ZRO : Nat := 0b010
def FL_NEG : Nat := 0b100

def TRAP_GETC : Nat := 0b100000
def TRAP_OUT : Nat := 0b100001
def TRAP_PUTS : Nat := 0b100010
def TRAP_IN : Nat := 0b100011
def TRAP_PUTSP : Nat := 0b100100
def TRAP_HALT : Nat := 0b100101

def MR_KBSR : Nat := 0xFE00
def MR_KBDR : Nat := 0xFE02

def PC_START : Nat := 0x3000

/-! ## State -/

/-- Ways in which a C operation fails to produce a result: an index outside
the `memory` array, or a blocking `getchar` with no byte to read. -/
inductive Fault where
  | outOfBounds
  | blocked
  deriving DecidableEq, Repr

/-- The globals of `main.c` and the two console streams.  `stdin` lists the
bytes that are ready to be read, `stdout` the bytes written so far. -/
structure Machine where
  memory : Nat → Nat
  reg : Nat → Nat
  instr : Nat
  running : Nat
  stdin : List Nat
  stdout : List Nat

/-- Conversion of an integer value to `uint16_t`. -/
def u16 (x : Nat) : Nat := x % 65536

/-- The assignment `reg[i] = v`. -/
def reg_set (s : Machine) (i v : Nat) : Machine :=
  { s with reg := fun j => if j = i then u16 v else s.reg j }

/-- The rvalue `memory[addr]`, with its out-of-bounds branch. -/
def memory_at (s : Machine) (addr : Nat) : Except Fault Nat :=
  if addr < UINT16_MAX then .ok (s.memory addr) else .error Fault.outOfBounds

/-- The assignment `memory[addr] = v`, with its out-of-bounds branch. -/
def memory_put (s : Machine) (addr v : Nat) : Except Fault Machine :=
  if addr < UINT16_MAX then
    .ok { s with memory := fun a => if a = addr then u16 v else s.memory a }
  else .error Fault.outOfBounds

/-- The library call `getchar()`: takes the next ready byte.  The stream stays
open, so with no byte ready the call waits and yields no result. -/
def getchar (s : Machine) : Except Fault (Nat × Machine) :=
  match s.stdin with
  | [] => .error Fault.blocked
  | b :: rest => .ok (b % 256, { s with stdin := rest })

/-- The library call `putc(c, stdout)`: the argument is written as one byte. -/
def putc (s : Machine) (c : Nat) : Machine :=
  { s with stdout := s.stdout ++ [c % 256] }

/-- The library call `printf` on a literal string. -/
def printf (s : Machine) (msg : String) : Machine :=
  { s with stdout := s.stdout ++ msg.toList.map Char.toNat }

/-! ## Memory and decoding -/

/-- Source: `check_key`, a zero-timeout `select` on standard input. -/
def check_key (s : Machine) : Nat :=
  if s.stdin ≠ [] then 1 else 0

/-- Source: `mem_read`. -/
def mem_read (s : Machine) (addr : Nat) : Except Fault (Nat × Machine) := do
  let s1 ←
    if addr = MR_KBSR then
      if check_key s ≠ 0 then do
        let s1 ← memory_put s MR_KBSR (1 <<< 15)
        let (c, s2) ← getchar s1
        memory_put s2 MR_KBDR c
      else memory_put s MR_KBSR 0
    else pure s
  let v ← memory_at s1 addr
  pure (v, s1)

/-- Source: `mem_write`. -/
def mem_write (s : Machine) (addr val : Nat) : Except Fault Machine :=
  memory_put s addr val

/-- Source: `sign_extend`. -/
def sign_extend (x : Nat) (bit_count : Nat) : Nat :=
  if (x >>> (bit_count - 1)) &&& 1 ≠ 0 then
    u16 (x ||| (0xFFFF <<< bit_count))
  else x

/-- Source: `lastnbits`. -/
def lastnbits (s : Machine) (n : Nat) : Nat :=
  let mask := u16 ((1 <<< n) - 1)
  sign_extend (s.instr &&& mask) n

/-- Source: `nthbit`. -/
def nthbit (s : Machine) (n : Nat) : Nat :=
  (s.instr >>> n) &&& 1

/-- Source: `basereg`. -/
def basereg (s : Machine) : Nat :=
  (s.instr >>> 6) &&& REG_MASK

/-- Source: `update_flags`. -/
def update_flags (s : Machine) (r : Nat) : Machine :=
  if s.reg r = 0 then reg_set s R_COND FL_ZRO
  else if s.reg r >>> 15 ≠ 0 then reg_set s R_COND FL_NEG
  else reg_set s R_COND FL_POS

/-! ## Opcode handlers -/

/-- Source: `add_and`. -/
def add_and (s : Machine) (and : Nat) : Machine :=
  let dr := (s.instr >>> 9) &&& REG_MASK
  let sr1 := (s.instr >>> 6) &&& REG_MASK
  let imm_flag := nthbit s 5
  let opr2 :=
    if imm_flag ≠ 0 then sign_extend (s.instr &&& 0b11111) 5
    else s.reg (s.instr &&& REG_MASK)
  let s1 :=
    if and ≠ 0 then reg_set s dr (s.reg sr1 &&& opr2)
    else reg_set s dr (s.reg sr1 + opr2)
  update_flags s1 dr

/-- Source: `br`. -/
def br (s : Machine) : Machine :=
  let n := nthbit s 11
  let z := nthbit s 10
  let p := nthbit s 9
  if (n ≠ 0 ∧ s.reg R_COND = FL_NEG) ∨ (z ≠ 0 ∧ s.reg R_COND = FL_ZRO)
      ∨ (p ≠ 0 ∧ s.reg R_COND = FL_POS) then
    reg_set s R_PC (s.reg R_PC + lastnbits s 9)
  else s

/-- Source: `jmp_ret`. -/
def jmp_ret (s : Machine) : Machine :=
  reg_set s R_PC (s.reg (basereg s))

/-- Source: `jsr`. -/
def jsr (s : Machine) : Machine :=
  let s1 := reg_set s R_R7 (s.reg R_PC)
  let imm_flag := nthbit s1 11
  if imm_flag ≠ 0 then reg_set s1 R_PC (s1.reg R_PC + lastnbits s1 11)
  else reg_set s1 R_PC (s1.reg (basereg s1))

/-- Source: `ld`. -/
def ld (s : Machine) : Except Fault Machine := do
  let dr := (s.instr >>> 9) &&& REG_MASK
  let (v, s1) ← mem_read s (u16 (s.reg R_PC + lastnbits s 9))
  pure (update_flags (reg_set s1 dr v) dr)

/-- Source: `ldi`. -/
def ldi (s : Machine) : Except Fault Machine := do
  let dr := (s.instr >>> 9) &&& REG_MASK
  let (ptr, s1) ← mem_read s (u16 (s.reg R_PC + lastnbits s 9))
  let (v, s2) ← mem_read s1 ptr
  pure (update_flags (reg_set s2 dr v) dr)

/-- Source: `ldr`. -/
def ldr (s : Machine) : Except Fault Machine := do
  let dr := (s.instr >>> 9) &&& REG_MASK
  let (v, s1) ← mem_read s (u16 (s.reg (basereg s) + lastnbits s 6))
  pure (update_flags (reg_set s1 dr v) dr)

/-- Source: `lea`. -/
def lea (s : Machine) : Machine :=
  let dr := (s.instr >>> 9) &&& REG_MASK
  update_flags (reg_set s dr (s.reg R_PC + lastnbits s 9)) dr

/-- Source: `not`.  The operand is promoted to a 32-bit `int` before `~`;
the store keeps the low 16 bits. -/
def not (s : Machine) : Machine :=
  let dr := (s.instr >>> 9) &&& REG_MASK
  let sr := (s.instr >>> 6) &&& REG_MASK
  update_flags (reg_set s dr (0xFFFFFFFF - s.reg sr)) dr

/-- Source: `st`. -/
def st (s : Machine) : Except Fault Machine :=
  let sr := (s.instr >>> 9) &&& REG_MASK
  mem_write s (u16 (s.reg R_PC + lastnbits s 9)) (s.reg sr)

/-- Source: `sti`. -/
def sti (s : Machine) : Except Fault Machine := do
  let sr := (s.instr >>> 9) &&& REG_MASK
  let (ptr, s1) ← mem_read s (u16 (s.reg R_PC + lastnbits s 9))
  mem_write s1 ptr (s1.reg sr)

/-- Source: `str`. -/
def str (s : Machine) : Except Fault Machine :=
  let sr := (s.instr >>> 9) &&& REG_MASK
  mem_write s (u16 (s.reg (basereg s) + lastnbits s 6)) (s.reg sr)

/-! ## Trap routines -/

/-- Source: `trap_getc`. -/
def trap_getc (s : Machine) : Except Fault Machine := do
  let (c, s1) ← getchar s
  pure (reg_set s1 R_R0 c)

/-- Source: `trap_out`. -/
def trap_out (s : Machine) : Machine :=
  putc s (s.reg R_R0)

/-- The `for` loop of `trap_puts` with the pointer at cell `p`.  The first
argument bounds the number of iterations; `UINT16_MAX + 1` iterations always
reach either a zero word or the end of the array. -/
def puts_loop : Nat → Machine → Nat → Except Fault Machine
  | 0, _, _ => .error Fault.outOfBounds
  | fuel + 1, s, p => do
    let w ← memory_at s p
    if w = 0 then pure s else puts_loop fuel (putc s w) (p + 1)

/-- Source: `trap_puts`. -/
def trap_puts (s : Machine) : Except Fault Machine :=
  puts_loop (UINT16_MAX + 1) s (s.reg R_R0)

/-- Source: `trap_in`. -/
def trap_in (s : Machine) : Except Fault Machine := do
  let (c, s1) ← getchar (printf s "Enter a character: ")
  pure (reg_set s1 R_R0 c)

/-- The `for` loop of `trap_putsp` with the pointer at cell `p`; the first
argument bounds the number of iterations as in `puts_loop`. -/
def putsp_loop : Nat → Machine → Nat → Except Fault Machine
  | 0, _, _ => .error Fault.outOfBounds
  | fuel + 1, s, p => do
    let w ← memory_at s p
    if w = 0 then pure s
    else
      let c1 := (w &&& 0xFF) % 256
      let s1 := putc s c1
      let c2 := (w >>> 8) % 256
      let s2 := if c2 ≠ 0 then putc s1 c2 else s1
      putsp_loop fuel s2 (p + 1)

/-- Source: `trap_putsp`. -/
def trap_putsp (s : Machine) : Except Fault Machine :=
  putsp_loop (UINT16_MAX + 1) s (s.reg R_R0)

/-- Source: `trap_halt`. -/
def trap_halt (s : Machine) : Machine :=
  { s with running := 0 }

/-- Source: `trap`. -/
def trap (s : Machine) : Except Fault Machine :=
  let code := s.instr &&& 0xFF
  if code = TRAP_GETC then trap_getc s
  else if code = TRAP_OUT then pure (trap_out s)
  else if code = TRAP_PUTS then trap_puts s
  else if code = TRAP_IN then trap_in s
  else if code = TRAP_PUTSP then trap_putsp s
  else if code = TRAP_HALT then pure (trap_halt s)
  else pure s

/-! ## The fetch-decode-execute loop of `main` -/

/-- One pass through the body of `while (running)` in `main`.  The second
component is `none` when the `switch` leaves through `break`, and `some 1`
when it leaves through `return 1`. -/
def main_step (s : Machine) : Except Fault (Machine × Option Nat) := do
  let pc := s.reg R_PC
  let (w, s1) ← mem_read (reg_set s R_PC (pc + 1)) pc
  let s2 : Machine := { s1 with instr := w }
  let opcode := s2.instr >>> 12
  if opcode = OP_ADD then pure (add_and s2 0, none)
  else if opcode = OP_AND then pure (add_and s2 1, none)
  else if opcode = OP_NOT then pure (not s2, none)
  else if opcode = OP_BR then pure (br s2, none)
  else if opcode = OP_JMP then pure (jmp_ret s2, none)
  else if opcode = OP_JSR then pure (jsr s2, none)
  else if opcode = OP_LD then do let s3 ← ld s2; pure (s3, none)
  else if opcode = OP_LDI then do let s3 ← ldi s2; pure (s3, none)
  else if opcode = OP_LDR then do let s3 ← ldr s2; pure (s3, none)
  else if opcode = OP_LEA then pure (lea s2, none)
  else if opcode = OP_ST then do let s3 ← st s2; pure (s3, none)
  else if opcode = OP_STI then do let s3 ← sti s2; pure (s3, none)
  else if opcode = OP_STR then do let s3 ← str s2; pure (s3, none)
  else if opcode = OP_TRAP then do let s3 ← trap s2; pure (s3, none)
  else pure (printf s2 "ERROR: Unsupported opcode. Aborted.", some 1)

/-- The loop `while (running)` of `main`, run for at most the given number
of passes.  The second component is the value `main` returns (`0` after the
loop ends, `1` from inside the `switch`), or `none` while the loop has not
ended. -/
def main_loop : Nat → Machine → Except Fault (Machine × Option Nat)
  | 0, s => pure (s, if s.running ≠ 0 then none else some 0)
  | fuel + 1, s =>
    if s.running ≠ 0 then do
      let (s1, ret) ← main_step s
      match ret with
      | some code => pure (s1, some code)
      | none => main_loop fuel s1
    else pure (s, some 0)

/-- The `switch (opcode)` of `main` on its own, for a machine whose `instr`
holds the fetched word; `main_step` is the fetch followed by this switch. -/
def execute (s2 : Machine) : Except Fault (Machine × Option Nat) :=
  let opcode := s2.instr >>> 12
  if opcode = OP_ADD then pure (add_and s2 0, none)
  else if opcode = OP_AND then pure (add_and s2 1, none)
  else if opcode = OP_NOT then pure (not s2, none)
  else if opcode = OP_BR then pure (br s2, none)
  else if opcode = OP_JMP then pure (jmp_ret s2, none)
  else if opcode = OP_JSR then pure (jsr s2, none)
  else if opcode = OP_LD then do let s3 ← ld s2; pure (s3, none)
  else if opcode = OP_LDI then do let s3 ← ldi s2; pure (s3, none)
  else if opcode = OP_LDR then do let s3 ← ldr s2; pure (s3, none)
  else if opcode = OP_LEA then pure (lea s2, none)
  else if opcode = OP_ST then do let s3 ← st s2; pure (s3, none)
  else if opcode = OP_STI then do let s3 ← sti s2; pure (s3, none)
  else if opcode = OP_STR then do let s3 ← str s2; pure (s3, none)
  else if opcode = OP_TRAP then do let s3 ← trap s2; pure (s3, none)
  else pure (printf s2 "ERROR: Unsupported opcode. Aborted.", some 1)

/-- The machine as `main` leaves it just before the loop: the statics `reg`,
`instr` are zero-filled, `running` is 1, PC is set to `PC_START`, and
`memory` holds whatever the image files put there. -/
def startup (image : Nat → Nat) (input : List Nat) : Machine :=
  { memory := image, reg := fun i => if i = R_PC then PC_START else 0, instr := 0,
    running := 1, stdin := input, stdout := [] }

/-! ## Reading the claims: instruction fields, flag values, effective addresses -/

/-- The field of `w` made of bits `hi` down to `lo`. -/
def bits (w hi lo : Nat) : Nat := (w / 2 ^ lo) % 2 ^ (hi + 1 - lo)

/-- The flag of a 16-bit value: NEGATIVE if bit 15 is set, else ZERO if the
value is 0, else POSITIVE. -/
def flag_of (v : Nat) : Nat :=
  if bits v 15 15 = 1 then FL_NEG else if v = 0 then FL_ZRO else FL_POS

/-- The value of the `n`-bit pattern `x` read as a two's-complement number. -/
def signed_value (n : Nat) (x : Nat) : Int :=
  if x < 2 ^ (n - 1) then (x : Int) else (x : Int) - 2 ^ n

/-- The second operand of ADD/AND as the claim reads it from the word in
`instr`: a register when bit 5 is clear, the sign-extended 5-bit immediate
otherwise. -/
def operand2 (s : Machine) : Nat :=
  if bits s.instr 5 5 = 0 then s.reg (bits s.instr 2 0)
  else sign_extend (bits s.instr 4 0) 5

/-- The branch condition as the claim words it: a requested condition bit
(n = bit 11, z = bit 10, p = bit 9) matches the current COND. -/
def br_condition (s : Machine) : Prop :=
  (bits s.instr 11 11 = 1 ∧ s.reg R_COND = FL_NEG) ∨
  (bits s.instr 10 10 = 1 ∧ s.reg R_COND = FL_ZRO) ∨
  (bits s.instr 9 9 = 1 ∧ s.reg R_COND = FL_POS)

/-- The PC-relative address of the claims: `(PC + sign_extend(bits 8-0, 9))
mod 65536`, PC being the already-incremented program counter. -/
def ea_pc (s : Machine) : Nat :=
  (s.reg R_PC + sign_extend (bits s.instr 8 0) 9) % 65536

/-- The base-plus-offset address of the claims:
`(reg[bits 8-6] + sign_extend(bits 5-0, 6)) mod 65536`. -/
def ea_base (s : Machine) : Nat :=
  (s.reg (bits s.instr 8 6) + sign_extend (bits s.instr 5 0) 6) % 65536

/-- The instructions that update the flags: ADD, AND, NOT, LD, LDI, LDR, LEA,
recognised by the opcode of the word `w`. -/
def flag_affecting (w : Nat) : Prop :=
  w >>> 12 = OP_ADD ∨ w >>> 12 = OP_AND ∨ w >>> 12 = OP_NOT ∨ w >>> 12 = OP_LD ∨
  w >>> 12 = OP_LDI ∨ w >>> 12 = OP_LDR ∨ w >>> 12 = OP_LEA

instance flag_affecting_decidable (w : Nat) : Decidable (flag_affecting w) :=
  inferInstanceAs (Decidable (
    w >>> 12 = OP_ADD ∨ w >>> 12 = OP_AND ∨ w >>> 12 = OP_NOT ∨ w >>> 12 = OP_LD ∨
    w >>> 12 = OP_LDI ∨ w >>> 12 = OP_LDR ∨ w >>> 12 = OP_LEA))

/-- The value written by the most recent flag-affecting instruction, brought
up to date after one pass of the loop body: `s1` is the machine after the
pass, so `s1.instr` is the word just executed and, when that word is
flag-affecting, its destination register (bits 11-9) holds what it wrote. -/
def last_write (s1 : Machine) (before : Option Nat) : Option Nat :=
  if flag_affecting s1.instr then some (s1.reg (bits s1.instr 11 9)) else before

/-- The loop `main_loop` with one more component carried along: the value
written by the most recent flag-affecting instruction of the run, `none`
while no such instruction has been executed. -/
def main_loop_traced :
    Nat → Machine → Option Nat → Except Fault (Machine × Option Nat × Option Nat)
  | 0, s, v => pure (s, (if s.running ≠ 0 then none else some 0), v)
  | fuel + 1, s, v =>
    if s.running ≠ 0 then do
      let (s1, ret) ← main_step s
      match ret with
      | some code => pure (s1, some code, last_write s1 v)
      | none => main_loop_traced fuel s1 (last_write s1 v)
    else pure (s, some 0, v)

/-- COND holds exactly one of the three flag values. -/
def one_flag (s : Machine) : Prop :=
  s.reg R_COND = FL_POS ∨ s.reg R_COND = FL_ZRO ∨ s.reg R_COND = FL_NEG

instance one_flag_decidable (s : Machine) : Decidable (one_flag s) :=
  inferInstanceAs (Decidable
    (s.reg R_COND = FL_POS ∨ s.reg R_COND = FL_ZRO ∨ s.reg R_COND = FL_NEG))

/-- The machine right after a fetch from an ordinary cell: PC incremented,
`instr` holding the word that PC pointed at. -/
def after_fetch (s : Machine) : Machine :=
  { reg_set s R_PC (s.reg R_PC + 1) with instr := s.memory (s.reg R_PC) }

/-- The bytes PUTS is to write for the words in cells `p, p+1, ..., p+d-1` of
the memory `m`: the low byte of each word, in address order. -/
def puts_bytes (m : Nat → Nat) (p d : Nat) : List Nat :=
  (List.range' p d).map (fun a => bits (m a) 7 0)

/-- The bytes PUTSP is to write for one word: the low byte, then the high
byte if it is not zero. -/
def putsp_word (w : Nat) : List Nat :=
  if bits w 15 8 ≠ 0 then [bits w 7 0, bits w 15 8] else [bits w 7 0]

/-- The bytes PUTSP is to write for the words in cells `p, p+1, ..., p+d-1` of
the memory `m`, in address order. -/
def putsp_bytes (m : Nat → Nat) : Nat → Nat → List Nat
  | _, 0 => []
  | p, d + 1 => putsp_word (m p) ++ putsp_bytes m (p + 1) d

/-- The service routine that the claim assigns to the trap code `c`: one of
the six console routines, or nothing at all for any other code. -/
def trap_routine (c : Nat) (s : Machine) : Except Fault Machine :=
  if c = TRAP_GETC then trap_getc s
  else if c = TRAP_OUT then pure (trap_out s)
  else if c = TRAP_PUTS then trap_puts s
  else if c = TRAP_IN then trap_in s
  else if c = TRAP_PUTSP then trap_putsp s
  else if c = TRAP_HALT then pure (trap_halt s)
  else pure s

/-- The six service codes 0x20 .. 0x25. -/
def known_trap_code (c : Nat) : Prop :=
  c = TRAP_GETC ∨ c = TRAP_OUT ∨ c = TRAP_PUTS ∨ c = TRAP_IN ∨ c = TRAP_PUTSP ∨
  c = TRAP_HALT

/-- The text written when the `switch` reaches `default:`. -/
def abort_message : String := "ERROR: Unsupported opcode. Aborted."

instance known_trap_code_decidable (c : Nat) : Decidable (known_trap_code c) :=
  inferInstanceAs (Decidable (c = TRAP_GETC ∨ c = TRAP_OUT ∨ c = TRAP_PUTS ∨
    c = TRAP_IN ∨ c = TRAP_PUTSP ∨ c = TRAP_HALT))

/-- The top 4 bits of the word that PC points at. -/
def opcode_of (s : Machine) : Nat := bits (s.memory (s.reg R_PC)) 15 12

/-- Every register and memory cell holds a `uint16_t`, as does `instr`. -/
def well_typed (s : Machine) : Prop :=
  (∀ i, s.reg i < 65536) ∧ (∀ a, s.memory a < 65536) ∧ s.instr < 65536

/-! ## Concrete machines used as examples -/

/-- The register file listed in index order (R0..R7, PC, COND). -/
def regs_of (l : List Nat) : Nat → Nat := fun i => l.getD i 0

/-- The memory that holds the listed `(address, word)` pairs and zero
elsewhere. -/
def memory_of (l : List (Nat × Nat)) : Nat → Nat := fun a => (l.lookup a).getD 0

/-- A machine about to execute from `regs` and `cells`, with `instr` already
fetched and nothing on the console. -/
def machine_of (regs : List Nat) (cells : List (Nat × Nat)) (instr : Nat) : Machine :=
  { memory := memory_of cells, reg := regs_of regs, instr := instr, running := 1,
    stdin := [], stdout := [] }

/-- R3 holds `0x8000`. -/
def example_flags : Machine := machine_of [0, 0, 0, 0x8000, 0, 0, 0, 0, 0x3000, 0] [] 0

/-- ADD R0,R1,R2 with R1 = 5 and R2 = 3. -/
def example_add : Machine := machine_of [0, 5, 3, 0, 0, 0, 0, 0, 0x3001, 0] [] 0x1042

/-- ADD R0,R1,#-1 with R1 = 5. -/
def example_add_imm : Machine := machine_of [0, 5, 0, 0, 0, 0, 0, 0, 0x3001, 0] [] 0x107F

/-- AND R0,R1,R2 with R1 = 0b1100 and R2 = 0b1010. -/
def example_and : Machine :=
  machine_of [0, 0b1100, 0b1010, 0, 0, 0, 0, 0, 0x3001, 0] [] 0x5042

/-- BRn #5 at PC = 0x3001 with COND = NEGATIVE. -/
def example_br : Machine := machine_of [0, 0, 0, 0, 0, 0, 0, 0, 0x3001, 4] [] 0x0805

/-- PC points at the keyboard-status address, which holds the word of
`JSR #1`; no key is waiting. -/
def example_jsr_kbsr : Machine :=
  machine_of [0, 0, 0, 0, 0, 0, 0, 0, 0xFE00, 2] [(0xFE00, 0x4801)] 0

/-- The machine `example_jsr_kbsr` with the key `A` waiting on the console. -/
def example_jsr_kbsr_key : Machine := { example_jsr_kbsr with stdin := [0x41] }

/-- PC = 0x3000 points at `JSR #-2` (word `0x4FFE`). -/
def example_jsr : Machine :=
  machine_of [1, 2, 3, 4, 5, 6, 7, 8, 0x3000, 2] [(0x3000, 0x4FFE)] 0

/-- LD R0,#255 fetched from 0xFEFF: the effective address is 0xFFFF. -/
def example_ld_top : Machine :=
  machine_of [0, 0, 0, 0, 0, 0, 0, 0, 0xFF00, 2] [(0xFEFF, 0x20FF)] 0x20FF

/-- LDR R0,R1,#0 with R1 = 0xFFFF. -/
def example_ldr_top : Machine :=
  machine_of [0, 0xFFFF, 0, 0, 0, 0, 0, 0, 0x3001, 4] [(0x3000, 0x6040)] 0x6040

/-- LD R2,#1 at PC = 0x3001, with the word 0x8001 stored at 0x3002. -/
def example_ld : Machine :=
  machine_of [0, 0, 0, 0, 0, 0, 0, 0, 0x3001, 2] [(0x3000, 0x2401), (0x3002, 0x8001)] 0x2401

/-- LDI R0,#0 at PC = 0x3001, where the pointer cell 0x3001 holds 0xFFFF. -/
def example_ldi_top : Machine :=
  machine_of [0, 0, 0, 0, 0, 0, 0, 0, 0x3001, 2] [(0x3000, 0xA000), (0x3001, 0xFFFF)] 0xA000

/-- LDI R3,#1 at PC = 0x3001: the cell 0x3002 points at 0x4000, which holds 7. -/
def example_ldi : Machine :=
  machine_of [0, 0, 0, 0, 0, 0, 0, 0, 0x3001, 2]
    [(0x3000, 0xA601), (0x3002, 0x4000), (0x4000, 7)] 0xA601

/-- ST R0,#255 fetched from 0xFEFF with R0 = 0x1234: the target is 0xFFFF. -/
def example_st_top : Machine :=
  machine_of [0x1234, 0, 0, 0, 0, 0, 0, 0, 0xFF00, 2] [(0xFEFF, 0x30FF)] 0x30FF

/-- STI R0,#0 at PC = 0x3001, where the pointer cell 0x3001 holds 0xFFFF. -/
def example_sti_top : Machine :=
  machine_of [0x1234, 0, 0, 0, 0, 0, 0, 0, 0x3001, 2]
    [(0x3000, 0xB000), (0x3001, 0xFFFF)] 0xB000

/-- STR R0,R1,#0 with R0 = 0x1234 and R1 = 0xFFFF. -/
def example_str_top : Machine :=
  machine_of [0x1234, 0xFFFF, 0, 0, 0, 0, 0, 0, 0x3001, 2] [(0x3000, 0x7040)] 0x7040

/-- STR R0,R1,#0 with R0 = 0x1234 and R1 = 0xFE00, the keyboard-status
address. -/
def example_str_kbsr : Machine :=
  machine_of [0x1234, 0xFE00, 0, 0, 0, 0, 0, 0, 0x3001, 2] [(0x3000, 0x7040)] 0x7040

/-- LEA R0,#1 with PC = 0xFFFF. -/
def example_lea_up : Machine :=
  machine_of [5, 0, 0, 0, 0, 0, 0, 0, 0xFFFF, 2] [] 0xE001

/-- LEA R0,#-1 with PC = 0. -/
def example_lea_down : Machine :=
  machine_of [5, 0, 0, 0, 0, 0, 0, 0, 0, 2] [] 0xE1FF

/-- NOT R0,R1 with R1 = 0. -/
def example_not : Machine :=
  machine_of [5, 0, 0, 0, 0, 0, 0, 0, 0x3001, 1] [] 0x907F

/-- Two keys, `A` then `B`, are waiting; the keyboard cells hold old values. -/
def example_key : Machine :=
  { machine_of [0, 0, 0, 0, 0, 0, 0, 0, 0x3001, 2] [(0xFE00, 7), (0xFE02, 9)] 0 with
    stdin := [0x41, 0x42] }

/-- No key is waiting; the keyboard cells hold old values. -/
def example_idle : Machine :=
  machine_of [0, 0, 0, 0, 0, 0, 0, 0, 0x3001, 2] [(0xFE00, 0x8000), (0xFE02, 9)] 0

/-- The image of the program ADD R0,R0,#-1; ST R0,#5; BRn #0; HALT, loaded at
0x3000. -/
def example_image : Nat → Nat :=
  memory_of [(0x3000, 0x103F), (0x3001, 0x3005), (0x3002, 0x0800), (0x3003, 0xF025)]

/-- The machine at startup with `example_image` loaded and an empty console. -/
def example_program : Machine := startup example_image []

/-- The program made of the single word HALT at 0x3000. -/
def example_halt : Machine := startup (memory_of [(0x3000, 0xF025)]) []

/-- PC = 0x3000 points at an RTI word. -/
def example_rti : Machine :=
  machine_of [1, 2, 3, 4, 5, 6, 7, 8, 0x3000, 2] [(0x3000, 0x8000)] 0

/-- PC points at the keyboard-status address, which holds 0 (a BR word); the
key `A` is waiting. -/
def example_fetch_kbsr_key : Machine :=
  { machine_of [0, 0, 0, 0, 0, 0, 0, 0, 0xFE00, 2] [(0xFE00, 0)] 0 with stdin := [0x41] }

/-- PC points at the keyboard-status address, which holds an RTI word; no key
is waiting. -/
def example_fetch_kbsr_rti : Machine :=
  machine_of [0, 0, 0, 0, 0, 0, 0, 0, 0xFE00, 2] [(0xFE00, 0x8000)] 0

/-- TRAP with the unassigned code 0x26 and bits 11-8 all set (word 0xFF26),
fetched and about to be dispatched. -/
def example_trap_unknown : Machine :=
  { machine_of [1, 2, 3, 4, 5, 6, 7, 8, 0x3001, 2] [(0x3000, 0xFF26)] 0xFF26 with
    stdin := [0x41] }

/-- PUTS with R0 = 0x4000 pointing at the words `A`, `B`, 0. -/
def example_puts : Machine :=
  machine_of [0x4000, 0, 0, 0, 0, 0, 0, 0, 0x3001, 2]
    [(0x4000, 0x41), (0x4001, 0x42), (0x4002, 0), (0x4003, 0x43)] 0xF022

/-- PUTSP with R0 = 0x4000 pointing at the words 0x4241 (`A`,`B`), 0x0043
(`C` alone), 0x4400 (a zero low byte, then `D`), 0. -/
def example_putsp : Machine :=
  machine_of [0x4000, 0, 0, 0, 0, 0, 0, 0, 0x3001, 2]
    [(0x4000, 0x4241), (0x4001, 0x0043), (0x4002, 0x4400), (0x4003, 0)] 0xF024

/-- PC = 0x3000 points at JSRR R7 (word 0x41C0); R7 holds 0x5000. -/
def example_jsrr_r7 : Machine :=
  machine_of [0, 0, 0x6000, 0, 0, 0, 0, 0x5000, 0x3000, 2] [(0x3000, 0x41C0)] 0

/-- PC = 0x3000 points at JSRR R2 (word 0x4080); R2 holds 0x6000. -/
def example_jsrr_r2 : Machine :=
  machine_of [0, 0, 0x6000, 0, 0, 0, 0, 0x5000, 0x3000, 2] [(0x3000, 0x4080)] 0

/-! ## Basic facts about the embedding -/

theorem dr_field (w : Nat) : (w >>> 9) &&& REG_MASK = bits w 11 9 := by
  rw [Nat.shiftRight_eq_div_pow]
  exact Nat.and_pow_two_sub_one_eq_mod _ 3

theorem sr_field (w : Nat) : (w >>> 6) &&& REG_MASK = bits w 8 6 := by
  rw [Nat.shiftRight_eq_div_pow]
  exact Nat.and_pow_two_sub_one_eq_mod _ 3

theorem sr2_field (w : Nat) : w &&& REG_MASK = bits w 2 0 := by
  simp only [bits, pow_zero, Nat.div_one]
  exact Nat.and_pow_two_sub_one_eq_mod _ 3

theorem imm5_field (w : Nat) : w &&& 0b11111 = bits w 4 0 := by
  simp only [bits, pow_zero, Nat.div_one]
  exact Nat.and_pow_two_sub_one_eq_mod _ 5

theorem nthbit_field (s : Machine) (n : Nat) : nthbit s n = bits s.instr n n := by
  simp only [nthbit, bits, Nat.shiftRight_eq_div_pow, Nat.and_one_is_mod,
    Nat.add_sub_cancel_left, pow_one]

theorem basereg_field (s : Machine) : basereg s = bits s.instr 8 6 :=
  sr_field s.instr

theorem lastnbits_field (s : Machine) (n : Nat) (hn : n = 6 ∨ n = 9 ∨ n = 11) :
    lastnbits s n = sign_extend (bits s.instr (n - 1) 0) n := by
  have key : ∀ k, 0 < k → k ≤ 16 →
      s.instr &&& u16 ((1 <<< k) - 1) = bits s.instr (k - 1) 0 := by
    intro k h0 h16
    have h1 : u16 ((1 <<< k) - 1) = 2 ^ k - 1 := by
      have : 2 ^ k ≤ 2 ^ 16 := Nat.pow_le_pow_right (by decide) h16
      have hp : 0 < 2 ^ k := Nat.two_pow_pos k
      rw [u16, Nat.shiftLeft_eq, Nat.one_mul]
      exact Nat.mod_eq_of_lt (by omega)
    rw [h1, Nat.and_pow_two_sub_one_eq_mod, bits, pow_zero, Nat.div_one]
    congr 2
    omega
  unfold lastnbits
  rcases hn with rfl | rfl | rfl
  · exact congrArg (fun x => sign_extend x 6) (key 6 (by decide) (by decide))
  · exact congrArg (fun x => sign_extend x 9) (key 9 (by decide) (by decide))
  · exact congrArg (fun x => sign_extend x 11) (key 11 (by decide) (by decide))

theorem sign_extend_arith (x n : Nat) (hx : x < 2 ^ n) :
    sign_extend x n =
      if x / 2 ^ (n - 1) % 2 ≠ 0 then (2 ^ n * 65535 + x) % 65536 else x := by
  unfold sign_extend u16
  rw [Nat.shiftRight_eq_div_pow, Nat.and_one_is_mod, Nat.shiftLeft_eq, Nat.lor_comm,
    Nat.mul_comm 65535 (2 ^ n), ← Nat.mul_add_lt_is_or hx]

theorem flag_of_code (v : Nat) (hv : v < 65536) :
    (if v = 0 then FL_ZRO else if v >>> 15 ≠ 0 then FL_NEG else FL_POS) = flag_of v := by
  simp only [flag_of, bits, Nat.shiftRight_eq_div_pow, Nat.reducePow, Nat.reduceSub,
    Nat.reduceAdd, FL_ZRO, FL_NEG, FL_POS]
  split_ifs <;> omega

theorem update_flags_reg (s : Machine) (r j : Nat) :
    (update_flags s r).reg j =
      if j = R_COND then
        (if s.reg r = 0 then FL_ZRO else if s.reg r >>> 15 ≠ 0 then FL_NEG else FL_POS)
      else s.reg j := by
  unfold update_flags reg_set u16
  split_ifs <;> simp_all [FL_ZRO, FL_NEG, FL_POS]

theorem update_flags_rest (s : Machine) (r : Nat) :
    (update_flags s r).memory = s.memory ∧ (update_flags s r).instr = s.instr ∧
    (update_flags s r).running = s.running ∧ (update_flags s r).stdin = s.stdin ∧
    (update_flags s r).stdout = s.stdout := by
  unfold update_flags reg_set
  split_ifs <;> simp

theorem reg_set_reg (s : Machine) (i v j : Nat) :
    (reg_set s i v).reg j = if j = i then v % 65536 else s.reg j := rfl

theorem bits_lt_eight (w lo : Nat) : bits w (lo + 2) lo < 8 := by
  have h : lo + 2 + 1 - lo = 3 := by omega
  rw [bits, h]
  exact Nat.mod_lt _ (by decide)

theorem add_and_reg (s : Machine) (and j : Nat) :
    (add_and s and).reg j =
      if j = R_COND then
        flag_of ((if and ≠ 0 then s.reg (bits s.instr 8 6) &&& operand2 s
          else s.reg (bits s.instr 8 6) + operand2 s) % 65536)
      else if j = bits s.instr 11 9 then
        (if and ≠ 0 then s.reg (bits s.instr 8 6) &&& operand2 s
          else s.reg (bits s.instr 8 6) + operand2 s) % 65536
      else s.reg j := by
  have hd : bits s.instr 11 9 ≠ R_COND := by
    have : bits s.instr 11 9 < 8 := bits_lt_eight s.instr 9
    simp only [R_COND]; omega
  have hop : (if nthbit s 5 ≠ 0 then sign_extend (s.instr &&& 0b11111) 5
      else s.reg (s.instr &&& REG_MASK)) = operand2 s := by
    rw [nthbit_field, imm5_field, sr2_field, operand2]
    split_ifs <;> simp_all
  unfold add_and
  simp only [hop, dr_field, sr_field, update_flags_reg]
  by_cases hj : j = R_COND
  · rw [if_pos hj, if_pos hj, ← flag_of_code _ (Nat.mod_lt _ (by decide))]
    split_ifs <;> simp_all [reg_set_reg]
  · rw [if_neg hj, if_neg hj]
    split_ifs <;> simp_all [reg_set_reg]

theorem add_and_rest (s : Machine) (and : Nat) :
    (add_and s and).memory = s.memory ∧ (add_and s and).instr = s.instr ∧
    (add_and s and).running = s.running ∧ (add_and s and).stdin = s.stdin ∧
    (add_and s and).stdout = s.stdout := by
  unfold add_and
  simp only [update_flags_rest]
  split_ifs <;> simp [reg_set]

theorem bit_ne_zero (w n : Nat) : bits w n n ≠ 0 ↔ bits w n n = 1 := by
  have h : n + 1 - n = 1 := by omega
  simp only [bits, h, pow_one]
  omega

theorem br_taken (s : Machine) (h : br_condition s) :
    br s = reg_set s R_PC (s.reg R_PC + sign_extend (bits s.instr 8 0) 9) := by
  unfold br
  simp only [nthbit_field, bit_ne_zero, lastnbits_field s 9 (by decide)]
  exact if_pos h

theorem br_not_taken (s : Machine) (h : ¬ br_condition s) : br s = s := by
  unfold br
  simp only [nthbit_field, bit_ne_zero]
  exact if_neg h

theorem mem_read_plain (s : Machine) (addr : Nat) (hk : addr ≠ MR_KBSR)
    (hb : addr < UINT16_MAX) : mem_read s addr = .ok (s.memory addr, s) := by
  simp [mem_read, memory_at, hk, hb, pure, Except.pure, bind, Except.bind]

theorem mem_read_outside (s : Machine) (addr : Nat) (hb : UINT16_MAX ≤ addr) :
    mem_read s addr = .error Fault.outOfBounds := by
  have hk : addr ≠ MR_KBSR := by
    simp only [UINT16_MAX, MR_KBSR] at hb ⊢; omega
  have hb2 : ¬ addr < UINT16_MAX := by omega
  simp [mem_read, memory_at, hk, hb2, pure, Except.pure, bind, Except.bind]

theorem main_step_jsr (s : Machine) (hk : s.reg R_PC ≠ MR_KBSR)
    (hb : s.reg R_PC < UINT16_MAX) (hop : s.memory (s.reg R_PC) >>> 12 = OP_JSR) :
    main_step s = .ok (jsr { reg_set s R_PC (s.reg R_PC + 1) with
      instr := s.memory (s.reg R_PC) }, none) := by
  have h := mem_read_plain (reg_set s R_PC (s.reg R_PC + 1)) (s.reg R_PC) hk hb
  have hm : (reg_set s R_PC (s.reg R_PC + 1)).memory = s.memory := rfl
  rw [hm] at h
  simp only [main_step, h, bind, Except.bind, hop]
  simp [OP_JSR, OP_ADD, OP_AND, OP_NOT, OP_BR, OP_JMP, pure, Except.pure]

theorem jsr_reg (s : Machine) (j : Nat) :
    (jsr s).reg j =
      if j = R_PC then
        (if bits s.instr 11 11 = 1 then
          (s.reg R_PC + sign_extend (bits s.instr 10 0) 11) % 65536
        else if bits s.instr 8 6 = R_R7 then s.reg R_PC % 65536 % 65536
        else s.reg (bits s.instr 8 6) % 65536)
      else if j = R_R7 then s.reg R_PC % 65536
      else s.reg j := by
  have hb : bits s.instr 8 6 ≠ R_PC := by
    have : bits s.instr 8 6 < 8 := bits_lt_eight s.instr 6
    simp only [R_PC]; omega
  have h1 : nthbit (reg_set s R_R7 (s.reg R_PC)) 11 = bits s.instr 11 11 :=
    nthbit_field _ 11
  have h2 : lastnbits (reg_set s R_R7 (s.reg R_PC)) 11 = sign_extend (bits s.instr 10 0) 11 :=
    lastnbits_field _ 11 (by decide)
  have h3 : basereg (reg_set s R_R7 (s.reg R_PC)) = bits s.instr 8 6 := basereg_field _
  unfold jsr
  simp only [h1, h2, h3, bit_ne_zero]
  by_cases hi : bits s.instr 11 11 = 1
  · simp only [hi, if_true, reg_set_reg]
    split_ifs <;> simp_all [R_PC, R_R7]
  · simp only [hi, if_false, reg_set_reg]
    split_ifs <;> simp_all [R_PC, R_R7]

theorem jsr_rest (s : Machine) :
    (jsr s).memory = s.memory ∧ (jsr s).instr = s.instr ∧
    (jsr s).running = s.running ∧ (jsr s).stdin = s.stdin ∧
    (jsr s).stdout = s.stdout := by
  simp only [jsr]
  split_ifs <;> simp [reg_set]

theorem well_typed_machine_of (regs : List Nat) (cells : List (Nat × Nat)) (instr : Nat)
    (h1 : ∀ x ∈ regs, x < 65536) (h2 : ∀ c ∈ cells, c.2 < 65536) (h3 : instr < 65536) :
    well_typed (machine_of regs cells instr) := by
  refine ⟨?_, ?_, h3⟩
  · intro i
    show regs.getD i 0 < 65536
    rw [List.getD_eq_getElem?_getD]
    cases h : regs[i]? with
    | none => simp
    | some x => simpa using h1 x (List.getElem?_mem h)
  · intro a
    show (cells.lookup a).getD 0 < 65536
    induction cells with
    | nil => simp
    | cons c cs ih =>
      obtain ⟨k, v⟩ := c
      have hv : v < 65536 := h2 (k, v) (List.mem_cons_self _ _)
      have ih2 := ih (fun c hc => h2 c (List.mem_cons_of_mem _ hc))
      by_cases hk : a = k
      · subst hk; simpa [List.lookup] using hv
      · have : (a == k) = false := by simpa using hk
        simpa [List.lookup, this] using ih2

theorem mem_write_inside (s : Machine) (addr v : Nat) (hb : addr < UINT16_MAX) :
    mem_write s addr v =
      .ok { s with memory := fun a => if a = addr then v % 65536 else s.memory a } := by
  simp [mem_write, memory_put, hb, u16]

theorem mem_write_outside (s : Machine) (addr v : Nat) (hb : UINT16_MAX ≤ addr) :
    mem_write s addr v = .error Fault.outOfBounds := by
  have hb2 : ¬ addr < UINT16_MAX := by omega
  simp [mem_write, memory_put, hb2]

theorem load_result (s : Machine) (dr v : Nat) (hd : dr < 8) (hv : v < 65536) :
    (update_flags (reg_set s dr v) dr).reg dr = v ∧
    (update_flags (reg_set s dr v) dr).reg R_COND = flag_of v ∧
    (∀ i, i ≠ dr → i ≠ R_COND → (update_flags (reg_set s dr v) dr).reg i = s.reg i) ∧
    (update_flags (reg_set s dr v) dr).memory = s.memory ∧
    (update_flags (reg_set s dr v) dr).stdin = s.stdin := by
  have hd2 : dr ≠ R_COND := by simp only [R_COND]; omega
  have hset : (reg_set s dr v).reg dr = v := by
    rw [reg_set_reg, if_pos rfl, Nat.mod_eq_of_lt hv]
  refine ⟨?_, ?_, ?_, ?_, ?_⟩
  · rw [update_flags_reg, if_neg hd2, hset]
  · rw [update_flags_reg, if_pos rfl, hset, flag_of_code v hv]
  · intro i hi hc
    rw [update_flags_reg, if_neg hc, reg_set_reg, if_neg hi]
  · rw [(update_flags_rest _ _).1]; rfl
  · rw [(update_flags_rest _ _).2.2.2.1]; rfl

theorem ld_inside (s : Machine)
    (hk : (s.reg R_PC + sign_extend (bits s.instr 8 0) 9) % 65536 ≠ MR_KBSR)
    (hb : (s.reg R_PC + sign_extend (bits s.instr 8 0) 9) % 65536 < UINT16_MAX) :
    ld s = .ok (update_flags (reg_set s (bits s.instr 11 9)
      (s.memory ((s.reg R_PC + sign_extend (bits s.instr 8 0) 9) % 65536)))
      (bits s.instr 11 9)) := by
  simp only [ld, lastnbits_field s 9 (by decide), u16, dr_field]
  rw [mem_read_plain _ _ hk hb]
  rfl

theorem ld_outside (s : Machine)
    (hb : UINT16_MAX ≤ (s.reg R_PC + sign_extend (bits s.instr 8 0) 9) % 65536) :
    ld s = .error Fault.outOfBounds := by
  simp only [ld, lastnbits_field s 9 (by decide), u16, dr_field]
  rw [mem_read_outside _ _ hb]
  rfl

theorem ldr_inside (s : Machine)
    (hk : (s.reg (bits s.instr 8 6) + sign_extend (bits s.instr 5 0) 6) % 65536 ≠ MR_KBSR)
    (hb : (s.reg (bits s.instr 8 6) + sign_extend (bits s.instr 5 0) 6) % 65536
      < UINT16_MAX) :
    ldr s = .ok (update_flags (reg_set s (bits s.instr 11 9)
      (s.memory ((s.reg (bits s.instr 8 6) + sign_extend (bits s.instr 5 0) 6) % 65536)))
      (bits s.instr 11 9)) := by
  simp only [ldr, lastnbits_field s 6 (by decide), u16, dr_field, basereg_field]
  rw [mem_read_plain _ _ hk hb]
  rfl

theorem ldr_outside (s : Machine)
    (hb : UINT16_MAX ≤
      (s.reg (bits s.instr 8 6) + sign_extend (bits s.instr 5 0) 6) % 65536) :
    ldr s = .error Fault.outOfBounds := by
  simp only [ldr, lastnbits_field s 6 (by decide), u16, dr_field, basereg_field]
  rw [mem_read_outside _ _ hb]
  rfl

theorem ldi_inside (s : Machine) (hk : ea_pc s ≠ MR_KBSR) (hb : ea_pc s < UINT16_MAX)
    (hk2 : s.memory (ea_pc s) ≠ MR_KBSR) (hb2 : s.memory (ea_pc s) < UINT16_MAX) :
    ldi s = .ok (update_flags (reg_set s (bits s.instr 11 9)
      (s.memory (s.memory (ea_pc s)))) (bits s.instr 11 9)) := by
  unfold ea_pc at hk hb hk2 hb2 ⊢
  simp only [ldi, lastnbits_field s 9 (by decide), u16, dr_field, bind, Except.bind]
  rw [mem_read_plain _ _ hk hb]
  simp only []
  rw [mem_read_plain _ _ hk2 hb2]
  rfl

theorem ldi_outside (s : Machine) (hb : UINT16_MAX ≤ ea_pc s) :
    ldi s = .error Fault.outOfBounds := by
  unfold ea_pc at hb
  simp only [ldi, lastnbits_field s 9 (by decide), u16, dr_field, bind, Except.bind]
  rw [mem_read_outside _ _ hb]

theorem ldi_pointer_outside (s : Machine) (hk : ea_pc s ≠ MR_KBSR)
    (hb : ea_pc s < UINT16_MAX) (hb2 : UINT16_MAX ≤ s.memory (ea_pc s)) :
    ldi s = .error Fault.outOfBounds := by
  unfold ea_pc at hk hb hb2
  simp only [ldi, lastnbits_field s 9 (by decide), u16, dr_field, bind, Except.bind]
  rw [mem_read_plain _ _ hk hb]
  simp only []
  rw [mem_read_outside _ _ hb2]

theorem st_eq (s : Machine) :
    st s = mem_write s (ea_pc s) (s.reg (bits s.instr 11 9)) := by
  simp only [st, lastnbits_field s 9 (by decide), u16, dr_field, ea_pc]

theorem str_eq (s : Machine) :
    str s = mem_write s (ea_base s) (s.reg (bits s.instr 11 9)) := by
  simp only [str, lastnbits_field s 6 (by decide), u16, dr_field, basereg_field, ea_base]

theorem sti_eq (s : Machine) (hk : ea_pc s ≠ MR_KBSR) (hb : ea_pc s < UINT16_MAX) :
    sti s = mem_write s (s.memory (ea_pc s)) (s.reg (bits s.instr 11 9)) := by
  unfold ea_pc at hk hb ⊢
  simp only [sti, lastnbits_field s 9 (by decide), u16, dr_field, bind, Except.bind]
  rw [mem_read_plain _ _ hk hb]

theorem sti_outside (s : Machine) (hb : UINT16_MAX ≤ ea_pc s) :
    sti s = .error Fault.outOfBounds := by
  unfold ea_pc at hb
  simp only [sti, lastnbits_field s 9 (by decide), u16, dr_field, bind, Except.bind]
  rw [mem_read_outside _ _ hb]

theorem lea_eq (s : Machine) :
    lea s = update_flags (reg_set s (bits s.instr 11 9) (ea_pc s)) (bits s.instr 11 9) := by
  have h : ∀ x, reg_set s (bits s.instr 11 9) (x % 65536) = reg_set s (bits s.instr 11 9) x := by
    intro x
    simp [reg_set, u16]
  simp only [lea, lastnbits_field s 9 (by decide), dr_field, ea_pc, h]

theorem not_eq (s : Machine) (hv : s.reg (bits s.instr 8 6) < 65536) :
    LC3.not s = update_flags (reg_set s (bits s.instr 11 9)
      (0xFFFF - s.reg (bits s.instr 8 6))) (bits s.instr 11 9) := by
  have h : u16 (0xFFFFFFFF - s.reg (bits s.instr 8 6))
      = u16 (0xFFFF - s.reg (bits s.instr 8 6)) := by
    simp only [u16]; omega
  simp only [LC3.not, dr_field, sr_field, reg_set, h]

theorem mem_read_kbsr_key (s : Machine) (b : Nat) (rest : List Nat)
    (h : s.stdin = b :: rest) :
    mem_read s MR_KBSR = .ok (0x8000, { s with
      memory := fun a =>
        if a = MR_KBDR then b % 256 else if a = MR_KBSR then 0x8000 else s.memory a,
      stdin := rest }) := by
  have hb : b % 256 % 65536 = b % 256 := by omega
  simp [mem_read, check_key, memory_put, memory_at, getchar, h, u16, MR_KBSR, MR_KBDR,
    UINT16_MAX, hb, pure, Except.pure, bind, Except.bind]

theorem mem_read_kbsr_idle (s : Machine) (h : s.stdin = []) :
    mem_read s MR_KBSR = .ok (0, { s with
      memory := fun a => if a = MR_KBSR then 0 else s.memory a }) := by
  simp [mem_read, check_key, memory_put, memory_at, h, u16, MR_KBSR,
    UINT16_MAX, pure, Except.pure, bind, Except.bind]

theorem main_step_eq (s : Machine) :
    main_step s = (mem_read (reg_set s R_PC (s.reg R_PC + 1)) (s.reg R_PC)).bind
      (fun p => execute { p.2 with instr := p.1 }) := rfl

theorem main_step_plain (s : Machine) (hk : s.reg R_PC ≠ MR_KBSR)
    (hb : s.reg R_PC < UINT16_MAX) : main_step s = execute (after_fetch s) := by
  rw [main_step_eq, mem_read_plain _ _ hk hb]
  rfl

theorem main_step_outside (s : Machine) (hb : UINT16_MAX ≤ s.reg R_PC) :
    main_step s = .error Fault.outOfBounds := by
  rw [main_step_eq, mem_read_outside _ _ hb]
  rfl

/-- What a memory read or write leaves alone: the registers, `instr`,
`running` and the output. -/
theorem mem_read_frame (s s' : Machine) (a v : Nat) (h : mem_read s a = .ok (v, s')) :
    s'.reg = s.reg ∧ s'.instr = s.instr ∧ s'.running = s.running ∧
    s'.stdout = s.stdout := by
  by_cases hk : a = MR_KBSR
  · subst hk
    cases hs : s.stdin with
    | nil =>
      rw [mem_read_kbsr_idle s hs] at h
      simp only [Except.ok.injEq, Prod.mk.injEq] at h
      obtain ⟨_, rfl⟩ := h
      exact ⟨rfl, rfl, rfl, rfl⟩
    | cons b rest =>
      rw [mem_read_kbsr_key s b rest hs] at h
      simp only [Except.ok.injEq, Prod.mk.injEq] at h
      obtain ⟨_, rfl⟩ := h
      exact ⟨rfl, rfl, rfl, rfl⟩
  · by_cases hb : a < UINT16_MAX
    · rw [mem_read_plain s a hk hb] at h
      simp only [Except.ok.injEq, Prod.mk.injEq] at h
      obtain ⟨_, rfl⟩ := h
      exact ⟨rfl, rfl, rfl, rfl⟩
    · rw [mem_read_outside s a (by omega)] at h
      cases h

theorem mem_write_frame (s s' : Machine) (a v : Nat) (h : mem_write s a v = .ok s') :
    s'.reg = s.reg ∧ s'.instr = s.instr ∧ s'.running = s.running ∧
    s'.stdout = s.stdout ∧ s'.stdin = s.stdin := by
  by_cases hb : a < UINT16_MAX
  · rw [mem_write_inside s a v hb] at h
    simp only [Except.ok.injEq] at h
    subst h
    exact ⟨rfl, rfl, rfl, rfl, rfl⟩
  · rw [mem_write_outside s a v (by omega)] at h
    cases h

theorem low_byte (w : Nat) : w % 256 = bits w 7 0 := by
  simp [bits]

theorem puts_loop_spec (m : Nat → Nat) (k : Nat) (hk : k < UINT16_MAX) (hz : m k = 0) :
    ∀ (d fuel : Nat) (s : Machine) (p : Nat), s.memory = m → p + d = k → d < fuel →
      (∀ j, p ≤ j → j < k → m j ≠ 0) →
      puts_loop fuel s p = .ok { s with stdout := s.stdout ++ puts_bytes m p d } := by
  intro d
  induction d with
  | zero =>
    intro fuel s p hm hp hf _
    subst hm
    obtain ⟨f, rfl⟩ : ∃ f, fuel = f + 1 := ⟨fuel - 1, by omega⟩
    have hpk : p = k := by omega
    subst hpk
    simp [puts_loop, memory_at, hk, hz, puts_bytes, pure, Except.pure, bind,
      Except.bind]
  | succ d ih =>
    intro fuel s p hm hp hf hnz
    subst hm
    obtain ⟨f, rfl⟩ : ∃ f, fuel = f + 1 := ⟨fuel - 1, by omega⟩
    have hpk : p < UINT16_MAX := by omega
    have hne : s.memory p ≠ 0 := hnz p (Nat.le_refl p) (by omega)
    have hrec := ih f (putc s (s.memory p)) (p + 1) rfl (by omega) (by omega)
      (fun j h1 h2 => hnz j (by omega) h2)
    simp only [puts_loop, memory_at, hpk, if_true, bind, Except.bind, hne, if_false]
    rw [hrec]
    simp [putc, puts_bytes, List.range'_succ, low_byte]

theorem putsp_loop_spec (m : Nat → Nat) (k : Nat) (hk : k < UINT16_MAX) (hz : m k = 0) :
    ∀ (d fuel : Nat) (s : Machine) (p : Nat), s.memory = m → p + d = k → d < fuel →
      (∀ j, p ≤ j → j < k → m j ≠ 0) →
      putsp_loop fuel s p = .ok { s with stdout := s.stdout ++ putsp_bytes m p d } := by
  intro d
  induction d with
  | zero =>
    intro fuel s p hm hp hf _
    subst hm
    obtain ⟨f, rfl⟩ : ∃ f, fuel = f + 1 := ⟨fuel - 1, by omega⟩
    have hpk : p = k := by omega
    subst hpk
    simp [putsp_loop, memory_at, hk, hz, putsp_bytes, pure, Except.pure, bind,
      Except.bind]
  | succ d ih =>
    intro fuel s p hm hp hf hnz
    subst hm
    obtain ⟨f, rfl⟩ : ∃ f, fuel = f + 1 := ⟨fuel - 1, by omega⟩
    have hpk : p < UINT16_MAX := by omega
    have hne : s.memory p ≠ 0 := hnz p (Nat.le_refl p) (by omega)
    have hlo : (s.memory p &&& 0xFF) % 256 = bits (s.memory p) 7 0 := by
      rw [show (0xFF : Nat) = 2 ^ 8 - 1 from rfl, Nat.and_pow_two_sub_one_eq_mod]
      simp [bits]
    have hhi : (s.memory p >>> 8) % 256 = bits (s.memory p) 15 8 := by
      rw [Nat.shiftRight_eq_div_pow]
      simp [bits]
    simp only [putsp_loop, memory_at, hpk, if_true, bind, Except.bind, hne, if_false,
      hlo, hhi]
    by_cases hc : bits (s.memory p) 15 8 = 0
    · have hrec := ih f (putc s (bits (s.memory p) 7 0)) (p + 1) rfl (by omega) (by omega)
        (fun j h1 h2 => hnz j (by omega) h2)
      simp only [hc, ne_eq, not_true_eq_false, if_false]
      rw [hrec]
      have hb : bits (s.memory p) 7 0 % 256 = bits (s.memory p) 7 0 := by
        rw [← low_byte]; omega
      simp [putc, putsp_bytes, putsp_word, hc, hb]
    · have hrec := ih f (putc (putc s (bits (s.memory p) 7 0)) (bits (s.memory p) 15 8)) (p + 1) rfl
        (by omega) (by omega) (fun j h1 h2 => hnz j (by omega) h2)
      simp only [hc, ne_eq, not_false_eq_true, if_true]
      rw [hrec]
      have hb : bits (s.memory p) 7 0 % 256 = bits (s.memory p) 7 0 := by
        rw [← low_byte]; omega
      have hb2 : bits (s.memory p) 15 8 % 256 = bits (s.memory p) 15 8 := by
        simp only [bits, Nat.reducePow, Nat.reduceSub, Nat.reduceAdd]; omega
      simp [putc, putsp_bytes, putsp_word, hc, hb, hb2]

theorem putsp_bytes_length (m : Nat → Nat) (p d : Nat) :
    d ≤ (putsp_bytes m p d).length ∧ (putsp_bytes m p d).length ≤ 2 * d := by
  induction d generalizing p with
  | zero => simp [putsp_bytes]
  | succ d ih =>
    have h := ih (p + 1)
    have hw : (putsp_word (m p)).length = 1 ∨ (putsp_word (m p)).length = 2 := by
      unfold putsp_word
      split_ifs <;> simp
    simp only [putsp_bytes, List.length_append]
    omega

theorem reg_set_mod (s : Machine) (i v : Nat) :
    reg_set s i (v % 65536) = reg_set s i v := by
  simp [reg_set, u16]

theorem flag_of_one_of (v : Nat) :
    flag_of v = FL_POS ∨ flag_of v = FL_ZRO ∨ flag_of v = FL_NEG := by
  unfold flag_of
  split_ifs <;> simp

/-- A register write followed by `update_flags` on the same register, as
every flag-affecting handler ends: COND is the flag of the value now in that
register. -/
theorem flag_write_result (s : Machine) (dr v : Nat) (hd : dr < 8) :
    (update_flags (reg_set s dr v) dr).reg R_COND
      = flag_of ((update_flags (reg_set s dr v) dr).reg dr) ∧
    (update_flags (reg_set s dr v) dr).instr = s.instr := by
  have h := load_result s dr (v % 65536) hd (Nat.mod_lt _ (by decide))
  rw [reg_set_mod] at h
  refine ⟨by rw [h.2.1, h.1], ?_⟩
  rw [(update_flags_rest _ _).2.1]
  rfl

theorem ld_ok (s s3 : Machine) (h : ld s = .ok s3) :
    ∃ v s1, s1.instr = s.instr ∧
      s3 = update_flags (reg_set s1 (bits s.instr 11 9) v) (bits s.instr 11 9) := by
  simp only [ld, bind, Except.bind, dr_field] at h
  split at h
  · cases h
  · rename_i p hp
    obtain ⟨v, s1⟩ := p
    simp only [pure, Except.pure, Except.ok.injEq] at h
    exact ⟨v, s1, (mem_read_frame _ _ _ _ hp).2.1, h.symm⟩

theorem ldr_ok (s s3 : Machine) (h : ldr s = .ok s3) :
    ∃ v s1, s1.instr = s.instr ∧
      s3 = update_flags (reg_set s1 (bits s.instr 11 9) v) (bits s.instr 11 9) := by
  simp only [ldr, bind, Except.bind, dr_field] at h
  split at h
  · cases h
  · rename_i p hp
    obtain ⟨v, s1⟩ := p
    simp only [pure, Except.pure, Except.ok.injEq] at h
    exact ⟨v, s1, (mem_read_frame _ _ _ _ hp).2.1, h.symm⟩

theorem ldi_ok (s s3 : Machine) (h : ldi s = .ok s3) :
    ∃ v s1, s1.instr = s.instr ∧
      s3 = update_flags (reg_set s1 (bits s.instr 11 9) v) (bits s.instr 11 9) := by
  simp only [ldi, bind, Except.bind, dr_field] at h
  split at h
  · cases h
  · rename_i p hp
    obtain ⟨ptr, s1⟩ := p
    simp only at h
    split at h
    · cases h
    · rename_i q hq
      obtain ⟨v, s2⟩ := q
      simp only [pure, Except.pure, Except.ok.injEq] at h
      exact ⟨v, s2, ((mem_read_frame _ _ _ _ hq).2.1).trans (mem_read_frame _ _ _ _ hp).2.1,
        h.symm⟩

theorem store_ok (s s3 : Machine) (h : st s = .ok s3 ∨ sti s = .ok s3 ∨ str s = .ok s3) :
    s3.reg = s.reg ∧ s3.instr = s.instr ∧ s3.running = s.running := by
  rcases h with h | h | h
  · have f := mem_write_frame _ _ _ _ h
    exact ⟨f.1, f.2.1, f.2.2.1⟩
  · simp only [sti, bind, Except.bind] at h
    split at h
    · cases h
    · rename_i p hp
      obtain ⟨ptr, s1⟩ := p
      have f1 := mem_read_frame _ _ _ _ hp
      have f2 := mem_write_frame _ _ _ _ h
      exact ⟨f2.1.trans f1.1, f2.2.1.trans f1.2.1, f2.2.2.1.trans f1.2.2.1⟩
  · have f := mem_write_frame _ _ _ _ h
    exact ⟨f.1, f.2.1, f.2.2.1⟩

theorem puts_loop_frame :
    ∀ (fuel : Nat) (s s' : Machine) (p : Nat), puts_loop fuel s p = .ok s' →
      s'.reg = s.reg ∧ s'.instr = s.instr ∧ s'.memory = s.memory ∧
      s'.running = s.running ∧ s'.stdin = s.stdin := by
  intro fuel
  induction fuel with
  | zero => intro s s' p h; cases h
  | succ f ih =>
    intro s s' p h
    simp only [puts_loop, memory_at, bind, Except.bind] at h
    split at h
    · cases h
    · rename_i w hw
      split at h
      · simp only [pure, Except.pure, Except.ok.injEq] at h
        subst h
        exact ⟨rfl, rfl, rfl, rfl, rfl⟩
      · have r := ih _ _ _ h
        exact r

theorem putsp_loop_frame :
    ∀ (fuel : Nat) (s s' : Machine) (p : Nat), putsp_loop fuel s p = .ok s' →
      s'.reg = s.reg ∧ s'.instr = s.instr ∧ s'.memory = s.memory ∧
      s'.running = s.running ∧ s'.stdin = s.stdin := by
  intro fuel
  induction fuel with
  | zero => intro s s' p h; cases h
  | succ f ih =>
    intro s s' p h
    simp only [putsp_loop, memory_at, bind, Except.bind] at h
    split at h
    · cases h
    · rename_i w hw
      split at h
      · simp only [pure, Except.pure, Except.ok.injEq] at h
        subst h
        exact ⟨rfl, rfl, rfl, rfl, rfl⟩
      · have r := ih _ _ _ h
        split at r <;> exact r

theorem trap_code_field (w : Nat) : w &&& 0xFF = bits w 7 0 := by
  rw [show (0xFF : Nat) = 2 ^ 8 - 1 from rfl, Nat.and_pow_two_sub_one_eq_mod]
  simp [bits]

theorem getchar_ok (s s1 : Machine) (c : Nat) (h : getchar s = .ok (c, s1)) :
    s1.reg = s.reg ∧ s1.instr = s.instr ∧ s1.memory = s.memory ∧
    s1.running = s.running ∧ s1.stdout = s.stdout := by
  unfold getchar at h
  split at h
  · cases h
  · simp only [Except.ok.injEq, Prod.mk.injEq] at h
    obtain ⟨_, rfl⟩ := h
    exact ⟨rfl, rfl, rfl, rfl, rfl⟩

/-- What any trap routine leaves alone: `instr`, memory and every register
other than R0. -/
theorem trap_ok (s s' : Machine) (h : trap s = .ok s') :
    s'.instr = s.instr ∧ s'.memory = s.memory ∧ ∀ i, i ≠ R_R0 → s'.reg i = s.reg i := by
  simp only [trap] at h
  split_ifs at h
  · simp only [trap_getc, bind, Except.bind] at h
    split at h
    · cases h
    · rename_i p hp
      obtain ⟨c, s1⟩ := p
      simp only [pure, Except.pure, Except.ok.injEq] at h
      subst h
      have f := getchar_ok _ _ _ hp
      refine ⟨f.2.1, f.2.2.1, ?_⟩
      intro i hi
      rw [reg_set_reg, if_neg hi, f.1]
  · simp only [pure, Except.pure, Except.ok.injEq] at h
    subst h
    exact ⟨rfl, rfl, fun _ _ => rfl⟩
  · have f := puts_loop_frame _ _ _ _ h
    exact ⟨f.2.1, f.2.2.1, fun i _ => by rw [f.1]⟩
  · simp only [trap_in, bind, Except.bind] at h
    split at h
    · cases h
    · rename_i p hp
      obtain ⟨c, s1⟩ := p
      simp only [pure, Except.pure, Except.ok.injEq] at h
      subst h
      have f := getchar_ok _ _ _ hp
      refine ⟨f.2.1, f.2.2.1, ?_⟩
      intro i hi
      rw [reg_set_reg, if_neg hi, f.1]
      rfl
  · have f := putsp_loop_frame _ _ _ _ h
    exact ⟨f.2.1, f.2.2.1, fun i _ => by rw [f.1]⟩
  · simp only [pure, Except.pure, Except.ok.injEq] at h
    subst h
    exact ⟨rfl, rfl, fun _ _ => rfl⟩
  · simp only [pure, Except.pure, Except.ok.injEq] at h
    subst h
    exact ⟨rfl, rfl, fun _ _ => rfl⟩

theorem add_and_cond (s : Machine) (and : Nat) :
    (add_and s and).reg R_COND = flag_of ((add_and s and).reg (bits s.instr 11 9)) := by
  have hd : bits s.instr 11 9 ≠ R_COND := by
    have : bits s.instr 11 9 < 8 := bits_lt_eight s.instr 9
    simp only [R_COND]; omega
  rw [add_and_reg, if_pos rfl, add_and_reg, if_neg hd, if_pos rfl]

theorem not_unfold (s : Machine) :
    LC3.not s = update_flags (reg_set s (bits s.instr 11 9)
      (0xFFFFFFFF - s.reg (bits s.instr 8 6))) (bits s.instr 11 9) := by
  simp only [LC3.not, dr_field, sr_field]

theorem br_quiet (s : Machine) :
    (br s).instr = s.instr ∧ (br s).reg R_COND = s.reg R_COND ∧
    (br s).memory = s.memory ∧ (br s).running = s.running := by
  by_cases h : br_condition s
  · rw [br_taken s h]; exact ⟨rfl, rfl, rfl, rfl⟩
  · rw [br_not_taken s h]; exact ⟨rfl, rfl, rfl, rfl⟩

theorem jmp_ret_quiet (s : Machine) :
    (jmp_ret s).instr = s.instr ∧ (jmp_ret s).reg R_COND = s.reg R_COND ∧
    (jmp_ret s).memory = s.memory ∧ (jmp_ret s).running = s.running :=
  ⟨rfl, rfl, rfl, rfl⟩

/-- What the `switch` does to COND: a flag-affecting word leaves COND equal to
the flag of the value now in its destination register, any other word leaves
COND as it was; `instr` is never changed. -/
theorem execute_cond (s2 s3 : Machine) (r : Option Nat) (h : execute s2 = .ok (s3, r)) :
    s3.instr = s2.instr ∧
    (flag_affecting s2.instr → s3.reg R_COND = flag_of (s3.reg (bits s2.instr 11 9))) ∧
    (¬ flag_affecting s2.instr → s3.reg R_COND = s2.reg R_COND) := by
  have hd : bits s2.instr 11 9 < 8 := bits_lt_eight s2.instr 9
  have loud : ∀ s1 v, s1.instr = s2.instr → flag_affecting s2.instr →
      s3 = update_flags (reg_set s1 (bits s2.instr 11 9) v) (bits s2.instr 11 9) →
      s3.instr = s2.instr ∧
      (flag_affecting s2.instr → s3.reg R_COND = flag_of (s3.reg (bits s2.instr 11 9))) ∧
      (¬ flag_affecting s2.instr → s3.reg R_COND = s2.reg R_COND) := by
    intro s1 v hi hfa he
    have f := flag_write_result s1 (bits s2.instr 11 9) v hd
    rw [← he] at f
    exact ⟨f.2.trans hi, fun _ => f.1, fun hq => absurd hfa hq⟩
  have quiet : s3.instr = s2.instr → s3.reg R_COND = s2.reg R_COND →
      ¬ flag_affecting s2.instr →
      s3.instr = s2.instr ∧
      (flag_affecting s2.instr → s3.reg R_COND = flag_of (s3.reg (bits s2.instr 11 9))) ∧
      (¬ flag_affecting s2.instr → s3.reg R_COND = s2.reg R_COND) :=
    fun hi hc hq => ⟨hi, fun hfa => absurd hfa hq, fun _ => hc⟩
  unfold execute at h
  dsimp only at h
  by_cases h1 : s2.instr >>> 12 = OP_ADD
  · rw [if_pos h1] at h
    simp only [pure, Except.pure, Except.ok.injEq, Prod.mk.injEq] at h
    obtain ⟨rfl, _⟩ := h
    exact ⟨(add_and_rest s2 0).2.1, fun _ => add_and_cond s2 0,
      fun hq => absurd (Or.inl h1) hq⟩
  rw [if_neg h1] at h
  by_cases h2 : s2.instr >>> 12 = OP_AND
  · rw [if_pos h2] at h
    simp only [pure, Except.pure, Except.ok.injEq, Prod.mk.injEq] at h
    obtain ⟨rfl, _⟩ := h
    exact ⟨(add_and_rest s2 1).2.1, fun _ => add_and_cond s2 1,
      fun hq => absurd (Or.inr (Or.inl h2)) hq⟩
  rw [if_neg h2] at h
  by_cases h3 : s2.instr >>> 12 = OP_NOT
  · rw [if_pos h3] at h
    simp only [pure, Except.pure, Except.ok.injEq, Prod.mk.injEq] at h
    obtain ⟨rfl, _⟩ := h
    exact loud s2 _ rfl (Or.inr (Or.inr (Or.inl h3))) (not_unfold s2)
  rw [if_neg h3] at h
  by_cases h4 : s2.instr >>> 12 = OP_BR
  · rw [if_pos h4] at h
    simp only [pure, Except.pure, Except.ok.injEq, Prod.mk.injEq] at h
    obtain ⟨rfl, _⟩ := h
    exact quiet (br_quiet s2).1 (br_quiet s2).2.1 (by rw [flag_affecting, h4]; decide)
  rw [if_neg h4] at h
  by_cases h5 : s2.instr >>> 12 = OP_JMP
  · rw [if_pos h5] at h
    simp only [pure, Except.pure, Except.ok.injEq, Prod.mk.injEq] at h
    obtain ⟨rfl, _⟩ := h
    exact quiet rfl rfl (by rw [flag_affecting, h5]; decide)
  rw [if_neg h5] at h
  by_cases h6 : s2.instr >>> 12 = OP_JSR
  · rw [if_pos h6] at h
    simp only [pure, Except.pure, Except.ok.injEq, Prod.mk.injEq] at h
    obtain ⟨rfl, _⟩ := h
    refine quiet (jsr_rest s2).2.1 ?_ (by rw [flag_affecting, h6]; decide)
    rw [jsr_reg, if_neg (by decide), if_neg (by decide)]
  rw [if_neg h6] at h
  by_cases h7 : s2.instr >>> 12 = OP_LD
  · rw [if_pos h7] at h
    simp only [bind, Except.bind] at h
    split at h
    · cases h
    · rename_i s4 hs
      simp only [pure, Except.pure, Except.ok.injEq, Prod.mk.injEq] at h
      obtain ⟨rfl, _⟩ := h
      obtain ⟨v, s1, hi, he⟩ := ld_ok _ _ hs
      exact loud s1 v hi (Or.inr (Or.inr (Or.inr (Or.inl h7)))) he
  rw [if_neg h7] at h
  by_cases h8 : s2.instr >>> 12 = OP_LDI
  · rw [if_pos h8] at h
    simp only [bind, Except.bind] at h
    split at h
    · cases h
    · rename_i s4 hs
      simp only [pure, Except.pure, Except.ok.injEq, Prod.mk.injEq] at h
      obtain ⟨rfl, _⟩ := h
      obtain ⟨v, s1, hi, he⟩ := ldi_ok _ _ hs
      exact loud s1 v hi (Or.inr (Or.inr (Or.inr (Or.inr (Or.inl h8))))) he
  rw [if_neg h8] at h
  by_cases h9 : s2.instr >>> 12 = OP_LDR
  · rw [if_pos h9] at h
    simp only [bind, Except.bind] at h
    split at h
    · cases h
    · rename_i s4 hs
      simp only [pure, Except.pure, Except.ok.injEq, Prod.mk.injEq] at h
      obtain ⟨rfl, _⟩ := h
      obtain ⟨v, s1, hi, he⟩ := ldr_ok _ _ hs
      exact loud s1 v hi (Or.inr (Or.inr (Or.inr (Or.inr (Or.inr (Or.inl h9)))))) he
  rw [if_neg h9] at h
  by_cases h10 : s2.instr >>> 12 = OP_LEA
  · rw [if_pos h10] at h
    simp only [pure, Except.pure, Except.ok.injEq, Prod.mk.injEq] at h
    obtain ⟨rfl, _⟩ := h
    exact loud s2 _ rfl (Or.inr (Or.inr (Or.inr (Or.inr (Or.inr (Or.inr h10))))))
      (lea_eq s2)
  rw [if_neg h10] at h
  by_cases h11 : s2.instr >>> 12 = OP_ST
  · rw [if_pos h11] at h
    simp only [bind, Except.bind] at h
    split at h
    · cases h
    · rename_i s4 hs
      simp only [pure, Except.pure, Except.ok.injEq, Prod.mk.injEq] at h
      obtain ⟨rfl, _⟩ := h
      have f := store_ok s2 _ (Or.inl hs)
      exact quiet f.2.1 (by rw [f.1]) (by rw [flag_affecting, h11]; decide)
  rw [if_neg h11] at h
  by_cases h12 : s2.instr >>> 12 = OP_STI
  · rw [if_pos h12] at h
    simp only [bind, Except.bind] at h
    split at h
    · cases h
    · rename_i s4 hs
      simp only [pure, Except.pure, Except.ok.injEq, Prod.mk.injEq] at h
      obtain ⟨rfl, _⟩ := h
      have f := store_ok s2 _ (Or.inr (Or.inl hs))
      exact quiet f.2.1 (by rw [f.1]) (by rw [flag_affecting, h12]; decide)
  rw [if_neg h12] at h
  by_cases h13 : s2.instr >>> 12 = OP_STR
  · rw [if_pos h13] at h
    simp only [bind, Except.bind] at h
    split at h
    · cases h
    · rename_i s4 hs
      simp only [pure, Except.pure, Except.ok.injEq, Prod.mk.injEq] at h
      obtain ⟨rfl, _⟩ := h
      have f := store_ok s2 _ (Or.inr (Or.inr hs))
      exact quiet f.2.1 (by rw [f.1]) (by rw [flag_affecting, h13]; decide)
  rw [if_neg h13] at h
  by_cases h14 : s2.instr >>> 12 = OP_TRAP
  · rw [if_pos h14] at h
    simp only [bind, Except.bind] at h
    split at h
    · cases h
    · rename_i s4 hs
      simp only [pure, Except.pure, Except.ok.injEq, Prod.mk.injEq] at h
      obtain ⟨rfl, _⟩ := h
      have f := trap_ok s2 _ hs
      exact quiet f.1 (f.2.2 R_COND (by decide)) (by rw [flag_affecting, h14]; decide)
  rw [if_neg h14] at h
  -- RTI, reserved
  simp only [pure, Except.pure, Except.ok.injEq, Prod.mk.injEq] at h
  obtain ⟨rfl, _⟩ := h
  exact quiet rfl rfl (by unfold flag_affecting; tauto)

/-- One pass of the loop body and COND, in terms of the machine after the
pass (whose `instr` is the word just executed). -/
theorem main_step_cond (s s1 : Machine) (r : Option Nat) (h : main_step s = .ok (s1, r)) :
    (flag_affecting s1.instr → s1.reg R_COND = flag_of (s1.reg (bits s1.instr 11 9))) ∧
    (¬ flag_affecting s1.instr → s1.reg R_COND = s.reg R_COND) := by
  rw [main_step_eq] at h
  cases hf : mem_read (reg_set s R_PC (s.reg R_PC + 1)) (s.reg R_PC) with
  | error e => rw [hf] at h; cases h
  | ok p =>
    obtain ⟨w, s0⟩ := p
    rw [hf] at h
    have fr := mem_read_frame _ _ _ _ hf
    have e := execute_cond _ _ _ h
    have hc : ({ s0 with instr := w } : Machine).reg R_COND = s.reg R_COND := by
      show s0.reg R_COND = s.reg R_COND
      rw [fr.1]; rfl
    rw [e.1]
    exact ⟨e.2.1, fun hq => (e.2.2 hq).trans hc⟩

/-- Dropping the carried value from `main_loop_traced` gives `main_loop`. -/
theorem main_loop_traced_erase :
    ∀ (n : Nat) (s : Machine) (v : Option Nat),
      (main_loop_traced n s v).map (fun x => (x.1, x.2.1)) = main_loop n s := by
  intro n
  induction n with
  | zero => intro s v; rfl
  | succ n ih =>
    intro s v
    simp only [main_loop_traced, main_loop]
    by_cases hr : s.running ≠ 0
    · rw [if_pos hr, if_pos hr]
      cases hs : main_step s with
      | error e => rfl
      | ok p =>
        obtain ⟨s1, ret⟩ := p
        cases ret with
        | none => exact ih s1 (last_write s1 v)
        | some code => rfl
    · rw [if_neg hr, if_neg hr]
      rfl

theorem last_write_step (s s1 : Machine) (r v : Option Nat) (c : Nat)
    (h : main_step s = .ok (s1, r))
    (hsome : ∀ x, v = some x → s.reg R_COND = flag_of x)
    (hnone : v = none → s.reg R_COND = c) :
    (∀ x, last_write s1 v = some x → s1.reg R_COND = flag_of x) ∧
    (last_write s1 v = none → s1.reg R_COND = c) := by
  have hc := main_step_cond s s1 r h
  unfold last_write
  by_cases hfa : flag_affecting s1.instr
  · rw [if_pos hfa]
    refine ⟨?_, fun h0 => by cases h0⟩
    intro x hx
    cases hx
    exact hc.1 hfa
  · rw [if_neg hfa, hc.2 hfa]
    exact ⟨hsome, hnone⟩

/-- The carried value and COND along a run: a carried `some x` means COND is
the flag of `x`, a carried `none` means COND is still what it was. -/
theorem main_loop_traced_cond :
    ∀ (n : Nat) (s s' : Machine) (v v' r : Option Nat) (c : Nat),
      main_loop_traced n s v = .ok (s', r, v') →
      (∀ x, v = some x → s.reg R_COND = flag_of x) →
      (v = none → s.reg R_COND = c) →
      (∀ x, v' = some x → s'.reg R_COND = flag_of x) ∧
      (v' = none → s'.reg R_COND = c) := by
  intro n
  induction n with
  | zero =>
    intro s s' v v' r c h hsome hnone
    simp only [main_loop_traced, pure, Except.pure, Except.ok.injEq, Prod.mk.injEq] at h
    obtain ⟨rfl, _, rfl⟩ := h
    exact ⟨hsome, hnone⟩
  | succ n ih =>
    intro s s' v v' r c h hsome hnone
    simp only [main_loop_traced] at h
    by_cases hr : s.running ≠ 0
    · rw [if_pos hr] at h
      cases hs : main_step s with
      | error e => rw [hs] at h; cases h
      | ok p =>
        obtain ⟨s1, ret⟩ := p
        rw [hs] at h
        have hl := last_write_step s s1 ret v c hs hsome hnone
        cases ret with
        | none => exact ih s1 s' _ v' r c h hl.1 hl.2
        | some code =>
          simp only [bind, Except.bind, pure, Except.pure, Except.ok.injEq,
            Prod.mk.injEq] at h
          obtain ⟨rfl, _, rfl⟩ := h
          exact hl
    · rw [if_neg hr] at h
      simp only [pure, Except.pure, Except.ok.injEq, Prod.mk.injEq] at h
      obtain ⟨rfl, _, rfl⟩ := h
      exact ⟨hsome, hnone⟩

/-- The dispatch table of the `switch`: each opcode and the handler it runs. -/
theorem execute_dispatch (s2 : Machine) :
    (s2.instr >>> 12 = OP_ADD → execute s2 = .ok (add_and s2 0, none)) ∧
    (s2.instr >>> 12 = OP_AND → execute s2 = .ok (add_and s2 1, none)) ∧
    (s2.instr >>> 12 = OP_NOT → execute s2 = .ok (LC3.not s2, none)) ∧
    (s2.instr >>> 12 = OP_BR → execute s2 = .ok (br s2, none)) ∧
    (s2.instr >>> 12 = OP_JMP → execute s2 = .ok (jmp_ret s2, none)) ∧
    (s2.instr >>> 12 = OP_JSR → execute s2 = .ok (jsr s2, none)) ∧
    (s2.instr >>> 12 = OP_LD → execute s2 = (ld s2).bind (fun s3 => .ok (s3, none))) ∧
    (s2.instr >>> 12 = OP_LDI → execute s2 = (ldi s2).bind (fun s3 => .ok (s3, none))) ∧
    (s2.instr >>> 12 = OP_LDR → execute s2 = (ldr s2).bind (fun s3 => .ok (s3, none))) ∧
    (s2.instr >>> 12 = OP_LEA → execute s2 = .ok (lea s2, none)) ∧
    (s2.instr >>> 12 = OP_ST → execute s2 = (st s2).bind (fun s3 => .ok (s3, none))) ∧
    (s2.instr >>> 12 = OP_STI → execute s2 = (sti s2).bind (fun s3 => .ok (s3, none))) ∧
    (s2.instr >>> 12 = OP_STR → execute s2 = (str s2).bind (fun s3 => .ok (s3, none))) ∧
    (s2.instr >>> 12 = OP_TRAP → execute s2 = (trap s2).bind (fun s3 => .ok (s3, none))) ∧
    (s2.instr >>> 12 = OP_RTI ∨ s2.instr >>> 12 = OP_RES →
      execute s2 = .ok (printf s2 abort_message, some 1)) := by
  refine ⟨?_, ?_, ?_, ?_, ?_, ?_, ?_, ?_, ?_, ?_, ?_, ?_, ?_, ?_, ?_⟩
  all_goals
    intro h
    unfold execute
    dsimp only
  iterate 14
    simp only [h, OP_ADD, OP_AND, OP_NOT, OP_BR, OP_JMP, OP_JSR, OP_LD, OP_LDI, OP_LDR, OP_LEA, OP_ST, OP_STI, OP_STR, OP_TRAP, OP_RTI, OP_RES, pure, Except.pure]
    rfl
  rcases h with h | h
  · simp only [h, OP_ADD, OP_AND, OP_NOT, OP_BR, OP_JMP, OP_JSR, OP_LD, OP_LDI, OP_LDR, OP_LEA, OP_ST, OP_STI, OP_STR, OP_TRAP, OP_RTI, OP_RES, pure, Except.pure]
    rfl
  · simp only [h, OP_ADD, OP_AND, OP_NOT, OP_BR, OP_JMP, OP_JSR, OP_LD, OP_LDI, OP_LDR, OP_LEA, OP_ST, OP_STI, OP_STR, OP_TRAP, OP_RTI, OP_RES, pure, Except.pure]
    rfl

theorem opcode_field (w : Nat) (hw : w < 65536) : w >>> 12 = bits w 15 12 := by
  rw [Nat.shiftRight_eq_div_pow]
  simp only [bits, Nat.reducePow, Nat.reduceSub, Nat.reduceAdd]
  omega

theorem opcode_cases (w : Nat) (hw : w < 65536) :
    (w >>> 12 = OP_RTI ∨ w >>> 12 = OP_RES) ∨
    (w >>> 12 = OP_ADD ∨ w >>> 12 = OP_AND ∨ w >>> 12 = OP_NOT ∨ w >>> 12 = OP_BR ∨ w >>> 12 = OP_JMP ∨ w >>> 12 = OP_JSR ∨ w >>> 12 = OP_LD ∨
      w >>> 12 = OP_LDI ∨ w >>> 12 = OP_LDR ∨ w >>> 12 = OP_LEA ∨ w >>> 12 = OP_ST ∨ w >>> 12 = OP_STI ∨ w >>> 12 = OP_STR ∨ w >>> 12 = OP_TRAP) := by
  rw [Nat.shiftRight_eq_div_pow]
  simp only [OP_ADD, OP_AND, OP_NOT, OP_BR, OP_JMP, OP_JSR, OP_LD, OP_LDI, OP_LDR, OP_LEA, OP_ST, OP_STI, OP_STR, OP_TRAP, OP_RTI, OP_RES, Nat.reducePow]
  omega

theorem trap_eq_routine (s : Machine) : trap s = trap_routine (bits s.instr 7 0) s := by
  unfold trap trap_routine
  simp only [trap_code_field]

theorem trap_unknown (s : Machine) (h : ¬ known_trap_code (bits s.instr 7 0)) :
    trap s = .ok s := by
  rw [trap_eq_routine]
  unfold known_trap_code at h
  unfold trap_routine
  rw [if_neg (fun e => h (Or.inl e)), if_neg (fun e => h (Or.inr (Or.inl e))),
    if_neg (fun e => h (Or.inr (Or.inr (Or.inl e)))),
    if_neg (fun e => h (Or.inr (Or.inr (Or.inr (Or.inl e))))),
    if_neg (fun e => h (Or.inr (Or.inr (Or.inr (Or.inr (Or.inl e)))))),
    if_neg (fun e => h (Or.inr (Or.inr (Or.inr (Or.inr (Or.inr e))))))]
  rfl

theorem main_loop_succ (n : Nat) (s s1 : Machine) (hrun : s.running ≠ 0)
    (h : main_step s = .ok (s1, none)) : main_loop (n + 1) s = main_loop n s1 := by
  simp only [main_loop, if_pos hrun, h, bind, Except.bind]

theorem main_loop_abort (n : Nat) (s s1 : Machine) (c : Nat) (hrun : s.running ≠ 0)
    (h : main_step s = .ok (s1, some c)) : main_loop (n + 1) s = .ok (s1, some c) := by
  simp only [main_loop, if_pos hrun, h, bind, Except.bind, pure, Except.pure]

theorem main_loop_stopped (n : Nat) (s : Machine) (hrun : s.running = 0) :
    main_loop n s = .ok (s, some 0) := by
  cases n with
  | zero => simp [main_loop, hrun, pure, Except.pure]
  | succ n => simp [main_loop, hrun, pure, Except.pure]

theorem execute_handled (s2 s3 : Machine) (r : Option Nat)
    (hh : ¬ (s2.instr >>> 12 = OP_RTI ∨ s2.instr >>> 12 = OP_RES)) (hw : s2.instr < 65536)
    (h : execute s2 = .ok (s3, r)) : r = none := by
  have pure_case : ∀ x : Machine,
      (Except.ok (x, none) : Except Fault (Machine × Option Nat)) = .ok (s3, r) →
      r = none := by
    intro x hx
    simp only [Except.ok.injEq, Prod.mk.injEq] at hx
    exact hx.2.symm
  have bind_case : ∀ e : Except Fault Machine,
      e.bind (fun s4 => (.ok (s4, none) : Except Fault (Machine × Option Nat)))
        = .ok (s3, r) → r = none := by
    intro e he
    cases e with
    | error f => cases he
    | ok x => exact pure_case x he
  obtain ⟨d1, d2, d3, d4, d5, d6, d7, d8, d9, d10, d11, d12, d13, d14, _⟩ :=
    execute_dispatch s2
  rcases opcode_cases s2.instr hw with hc | hc
  · exact absurd hc hh
  · rcases hc with hc | hc | hc | hc | hc | hc | hc | hc | hc | hc | hc | hc | hc | hc
    · rw [d1 hc] at h; exact pure_case _ h
    · rw [d2 hc] at h; exact pure_case _ h
    · rw [d3 hc] at h; exact pure_case _ h
    · rw [d4 hc] at h; exact pure_case _ h
    · rw [d5 hc] at h; exact pure_case _ h
    · rw [d6 hc] at h; exact pure_case _ h
    · rw [d7 hc] at h; exact bind_case _ h
    · rw [d8 hc] at h; exact bind_case _ h
    · rw [d9 hc] at h; exact bind_case _ h
    · rw [d10 hc] at h; exact pure_case _ h
    · rw [d11 hc] at h; exact bind_case _ h
    · rw [d12 hc] at h; exact bind_case _ h
    · rw [d13 hc] at h; exact bind_case _ h
    · rw [d14 hc] at h; exact bind_case _ h

theorem trap_halt_code (s : Machine) (h : bits s.instr 7 0 = TRAP_HALT) :
    trap s = .ok (trap_halt s) := by
  rw [trap_eq_routine, h]
  rfl

theorem puts_bytes_congr (m m2 : Nat → Nat) (p d : Nat)
    (h : ∀ a, p ≤ a → a < p + d → m2 a = m a) : puts_bytes m2 p d = puts_bytes m p d := by
  unfold puts_bytes
  apply List.map_congr_left
  intro a ha
  rw [List.mem_range'_1] at ha
  rw [h a ha.1 ha.2]

theorem putsp_bytes_congr (m m2 : Nat → Nat) :
    ∀ (d p : Nat), (∀ a, p ≤ a → a < p + d → m2 a = m a) →
      putsp_bytes m2 p d = putsp_bytes m p d := by
  intro d
  induction d with
  | zero => intro p _; rfl
  | succ d ih =>
    intro p h
    simp only [putsp_bytes]
    rw [h p (Nat.le_refl p) (by omega), ih (p + 1) (fun a h1 h2 => h a (by omega) (by omega))]

theorem trap_puts_ok (s : Machine) (k : Nat) (h0 : s.reg R_R0 ≤ k) (hk : k < UINT16_MAX)
    (hz : s.memory k = 0) (hmin : ∀ j, s.reg R_R0 ≤ j → j < k → s.memory j ≠ 0) :
    trap_puts s = .ok { s with
      stdout := s.stdout ++ puts_bytes s.memory (s.reg R_R0) (k - s.reg R_R0) } := by
  unfold trap_puts
  exact puts_loop_spec s.memory k hk hz (k - s.reg R_R0) (UINT16_MAX + 1) s (s.reg R_R0)
    rfl (by omega) (by omega) hmin

theorem trap_putsp_ok (s : Machine) (k : Nat) (h0 : s.reg R_R0 ≤ k) (hk : k < UINT16_MAX)
    (hz : s.memory k = 0) (hmin : ∀ j, s.reg R_R0 ≤ j → j < k → s.memory j ≠ 0) :
    trap_putsp s = .ok { s with
      stdout := s.stdout ++ putsp_bytes s.memory (s.reg R_R0) (k - s.reg R_R0) } := by
  unfold trap_putsp
  exact putsp_loop_spec s.memory k hk hz (k - s.reg R_R0) (UINT16_MAX + 1) s (s.reg R_R0)
    rfl (by omega) (by omega) hmin

theorem main_step_fetch (s s1 : Machine) (w : Nat)
    (hf : mem_read (reg_set s R_PC (s.reg R_PC + 1)) (s.reg R_PC) = .ok (w, s1)) :
    main_step s = execute { s1 with instr := w } := by
  rw [main_step_eq, hf]
  rfl

/-! ## The claims -/

/-- C1: for a width `n` in {5, 6, 9, 11} and an `n`-bit field `x`,
`sign_extend x n` is the 16-bit two's-complement widening of `x`: it is `x`
when bit `n-1` is clear, and `x + 65536 - 2^n` (bits `n..15` all set) when bit
`n-1` is set; read as a signed 16-bit number the result is `x` read as a
signed `n`-bit number; `sign_extend 0b11111 5 = 0xFFFF` and
`sign_extend 0b01111 5 = 15`. -/
theorem sign_extend_widens (n x : Nat) (hn : n = 5 ∨ n = 6 ∨ n = 9 ∨ n = 11)
    (hx : x < 2 ^ n) :
    (bits x (n - 1) (n - 1) = 0 → sign_extend x n = x) ∧
    (bits x (n - 1) (n - 1) = 1 →
      sign_extend x n = x + 65536 - 2 ^ n ∧
      ∀ i, n ≤ i → i ≤ 15 → bits (sign_extend x n) i i = 1) ∧
    signed_value 16 (sign_extend x n) = signed_value n x ∧
    sign_extend 0b11111 5 = 0xFFFF ∧ sign_extend 0b01111 5 = 15 := by
  refine ⟨?_, ?_, ?_, by decide, by decide⟩
  all_goals
    rw [sign_extend_arith x n hx]
    rcases hn with rfl | rfl | rfl | rfl
  all_goals
    simp only [bits, signed_value, Nat.reducePow, Nat.reduceSub, Nat.reduceAdd,
      Nat.reduceMul] at hx ⊢
  iterate 4 (intro h; rw [if_neg (by omega)])
  iterate 4
    intro h
    rw [if_pos (by omega)]
    refine ⟨by omega, ?_⟩
    intro i h1 h2
    interval_cases i <;> omega
  all_goals split_ifs <;> omega

/-- Witness for C1 at the 5-bit field `0b11111`. -/
theorem sign_extend_widens_witness :
    (5 = 5 ∨ 5 = 6 ∨ 5 = 9 ∨ 5 = 11) ∧ 31 < 2 ^ 5 ∧ bits 31 4 4 = 1 ∧
    sign_extend 31 5 = 31 + 65536 - 2 ^ 5 ∧
    signed_value 16 (sign_extend 31 5) = signed_value 5 31 :=
  ⟨Or.inl rfl, by decide, by decide,
    ((sign_extend_widens 5 31 (Or.inl rfl) (by decide)).2.1 (by decide)).1,
    (sign_extend_widens 5 31 (Or.inl rfl) (by decide)).2.2.1⟩

/-- C2: `update_flags r` sets COND to NEGATIVE if bit 15 of `reg[r]` is 1,
else to ZERO if `reg[r]` is 0, else to POSITIVE; COND is then exactly one of
the three flag values, and R0..R7, PC and memory are unchanged. -/
theorem update_flags_sets_cond (s : Machine) (r : Nat) (hv : s.reg r < 65536) :
    (bits (s.reg r) 15 15 = 1 → (update_flags s r).reg R_COND = FL_NEG) ∧
    (bits (s.reg r) 15 15 ≠ 1 → s.reg r = 0 →
      (update_flags s r).reg R_COND = FL_ZRO) ∧
    (bits (s.reg r) 15 15 ≠ 1 → s.reg r ≠ 0 →
      (update_flags s r).reg R_COND = FL_POS) ∧
    ((update_flags s r).reg R_COND = FL_POS ∨ (update_flags s r).reg R_COND = FL_ZRO
      ∨ (update_flags s r).reg R_COND = FL_NEG) ∧
    (∀ i, i ≤ 8 → (update_flags s r).reg i = s.reg i) ∧
    (update_flags s r).memory = s.memory := by
  have hc : (update_flags s r).reg R_COND = flag_of (s.reg r) := by
    rw [update_flags_reg, if_pos rfl, flag_of_code _ hv]
  rw [hc]
  refine ⟨?_, ?_, ?_, ?_, ?_, (update_flags_rest s r).1⟩
  · intro h; rw [flag_of, if_pos h]
  · intro h h0; rw [flag_of, if_neg h, if_pos h0]
  · intro h h0; rw [flag_of, if_neg h, if_neg h0]
  · unfold flag_of; split_ifs <;> simp
  · intro i hi
    rw [update_flags_reg, if_neg (by simp only [R_COND]; omega)]

/-- Witness for C2: R3 holds `0x8000`, so COND becomes NEGATIVE. -/
theorem update_flags_sets_cond_witness :
    (example_flags.reg 3 < 65536) ∧ bits (example_flags.reg 3) 15 15 = 1 ∧
    (update_flags example_flags 3).reg R_COND = FL_NEG :=
  ⟨by decide, by decide, (update_flags_sets_cond example_flags 3 (by decide)).1 (by decide)⟩

/-- C3: `add_and` leaves `reg[dest] = (reg_before[src1] OP operand2) mod 65536`
(`+` for ADD, bitwise and for AND; `operand2` is a register when bit 5 is 0
and the sign-extended 5-bit immediate when bit 5 is 1), COND is the flag of
the new `reg[dest]`, and PC, the other general registers and memory are
unchanged.  ADD R0,R1,R2 with R1=5, R2=3 gives R0=8 and COND=POSITIVE;
ADD R0,R1,#-1 with R1=5 gives R0=4; AND R0,R1,R2 with R1=0b1100, R2=0b1010
gives R0=0b1000. -/
theorem add_and_spec (s : Machine) :
    (add_and s 0).reg (bits s.instr 11 9)
      = (s.reg (bits s.instr 8 6) + operand2 s) % 65536 ∧
    (add_and s 1).reg (bits s.instr 11 9)
      = (s.reg (bits s.instr 8 6) &&& operand2 s) % 65536 ∧
    (∀ and, (add_and s and).reg R_COND
        = flag_of ((add_and s and).reg (bits s.instr 11 9)) ∧
      (∀ i, i ≠ bits s.instr 11 9 → i ≠ R_COND → (add_and s and).reg i = s.reg i) ∧
      (add_and s and).memory = s.memory) ∧
    (s.instr = 0x1042 → s.reg 1 = 5 → s.reg 2 = 3 →
      (add_and s 0).reg 0 = 8 ∧ (add_and s 0).reg R_COND = FL_POS) ∧
    (s.instr = 0x107F → s.reg 1 = 5 → (add_and s 0).reg 0 = 4) ∧
    (s.instr = 0x5042 → s.reg 1 = 0b1100 → s.reg 2 = 0b1010 →
      (add_and s 1).reg 0 = 0b1000) := by
  have hd : bits s.instr 11 9 ≠ R_COND := by
    have : bits s.instr 11 9 < 8 := bits_lt_eight s.instr 9
    simp only [R_COND]; omega
  have hadd : (add_and s 0).reg (bits s.instr 11 9)
      = (s.reg (bits s.instr 8 6) + operand2 s) % 65536 := by
    rw [add_and_reg, if_neg hd, if_pos rfl, if_neg (by decide)]
  have hand : (add_and s 1).reg (bits s.instr 11 9)
      = (s.reg (bits s.instr 8 6) &&& operand2 s) % 65536 := by
    rw [add_and_reg, if_neg hd, if_pos rfl, if_pos (by decide)]
  have hcond : ∀ and, (add_and s and).reg R_COND
      = flag_of ((add_and s and).reg (bits s.instr 11 9)) := by
    intro and
    rw [add_and_reg, if_pos rfl, add_and_reg, if_neg hd, if_pos rfl]
  refine ⟨hadd, hand, ?_, ?_, ?_, ?_⟩
  · intro and
    refine ⟨hcond and, ?_, (add_and_rest s and).1⟩
    intro i hi hc
    rw [add_and_reg, if_neg hc, if_neg hi]
  · intro hw h1 h2
    have b1 : bits s.instr 11 9 = 0 := by rw [hw]; decide
    have b2 : bits s.instr 8 6 = 1 := by rw [hw]; decide
    have b3 : operand2 s = 3 := by
      have b4 : bits s.instr 5 5 = 0 := by rw [hw]; decide
      have b5 : bits s.instr 2 0 = 2 := by rw [hw]; decide
      rw [operand2, if_pos b4, b5, h2]
    have hc := hcond 0
    rw [b1, b2, b3, h1] at hadd
    rw [b1, hadd] at hc
    rw [hadd, hc]
    decide
  · intro hw h1
    have b1 : bits s.instr 11 9 = 0 := by rw [hw]; decide
    have b2 : bits s.instr 8 6 = 1 := by rw [hw]; decide
    have b3 : operand2 s = 0xFFFF := by
      have b4 : bits s.instr 5 5 ≠ 0 := by rw [hw]; decide
      have b5 : bits s.instr 4 0 = 31 := by rw [hw]; decide
      rw [operand2, if_neg b4, b5]
      decide
    rw [b1, b2, b3, h1] at hadd
    rw [hadd]
  · intro hw h1 h2
    have b1 : bits s.instr 11 9 = 0 := by rw [hw]; decide
    have b2 : bits s.instr 8 6 = 1 := by rw [hw]; decide
    have b3 : operand2 s = 0b1010 := by
      have b4 : bits s.instr 5 5 = 0 := by rw [hw]; decide
      have b5 : bits s.instr 2 0 = 2 := by rw [hw]; decide
      rw [operand2, if_pos b4, b5, h2]
    rw [b1, b2, b3, h1] at hand
    rw [hand]
    decide

/-- Witness for C3: the three instructions of the claim on concrete
machines. -/
theorem add_and_spec_witness :
    ((add_and example_add 0).reg 0 = 8 ∧ (add_and example_add 0).reg R_COND = FL_POS) ∧
    (add_and example_add_imm 0).reg 0 = 4 ∧
    (add_and example_and 1).reg 0 = 0b1000 :=
  ⟨(add_and_spec example_add).2.2.2.1 rfl rfl rfl,
    (add_and_spec example_add_imm).2.2.2.2.1 rfl rfl,
    (add_and_spec example_and).2.2.2.2.2 rfl rfl rfl⟩

/-- C4: `br` changes PC to `(PC + sign_extend(bits 8-0, 9)) mod 65536` when a
requested condition bit (n = bit 11, z = bit 10, p = bit 9) matches COND, and
leaves PC as it is otherwise; with n = z = p = 0 it never changes PC, and
with n = 1, z = 0, p = 0 it branches exactly when COND is NEGATIVE.  R0..R7,
COND and memory are unchanged in both cases. -/
theorem br_spec (s : Machine) :
    (br_condition s →
      br s = reg_set s R_PC (s.reg R_PC + sign_extend (bits s.instr 8 0) 9) ∧
      (br s).reg R_PC = (s.reg R_PC + sign_extend (bits s.instr 8 0) 9) % 65536) ∧
    (¬ br_condition s → br s = s ∧ (br s).reg R_PC = s.reg R_PC) ∧
    (bits s.instr 11 11 = 0 → bits s.instr 10 10 = 0 → bits s.instr 9 9 = 0 →
      ¬ br_condition s ∧ (br s).reg R_PC = s.reg R_PC) ∧
    (bits s.instr 11 11 = 1 → bits s.instr 10 10 = 0 → bits s.instr 9 9 = 0 →
      (br_condition s ↔ s.reg R_COND = FL_NEG)) ∧
    (∀ i, i ≠ R_PC → (br s).reg i = s.reg i) ∧
    (br s).memory = s.memory := by
  refine ⟨?_, ?_, ?_, ?_, ?_, ?_⟩
  · intro h
    rw [br_taken s h]
    exact ⟨rfl, by rw [reg_set_reg, if_pos rfl]⟩
  · intro h
    rw [br_not_taken s h]
    exact ⟨rfl, rfl⟩
  · intro hn hz hp
    have h : ¬ br_condition s := by
      simp [br_condition, hn, hz, hp]
    rw [br_not_taken s h]
    exact ⟨h, rfl⟩
  · intro hn hz hp
    simp [br_condition, hn, hz, hp]
  · intro i hi
    by_cases h : br_condition s
    · rw [br_taken s h, reg_set_reg, if_neg hi]
    · rw [br_not_taken s h]
  · by_cases h : br_condition s
    · rw [br_taken s h]; rfl
    · rw [br_not_taken s h]

/-- Witness for C4: BRn #5 at PC = 0x3001 with COND = NEGATIVE moves PC to
0x3006. -/
theorem br_spec_witness :
    br_condition example_br ∧ (br example_br).reg R_PC = 0x3006 :=
  have h : br_condition example_br := Or.inl ⟨by decide, by decide⟩
  ⟨h, ((br_spec example_br).1 h).2.trans (by decide)⟩

/-- C5 (as amended): when PC points at a JSR/JSRR word `w` in a cell `a` of
the memory array other than the keyboard-status address, one
fetch-decode-execute step leaves R7 = (a + 1) mod 65536, and
PC = (a + 1 + sign_extend(bits 10-0 of w, 11)) mod 65536 when bit 11 of `w`
is 1, or PC = register[base] (base = bits 8-6, read after R7 was written)
when bit 11 is 0; R0..R6, COND and memory are unchanged. -/
theorem jsr_step_spec (s : Machine) (a w : Nat) (hwt : well_typed s)
    (hpc : s.reg R_PC = a) (ha : a < UINT16_MAX) (hk : a ≠ MR_KBSR)
    (hw : s.memory a = w) (hop : bits w 15 12 = OP_JSR) :
    ∃ s', main_step s = .ok (s', none) ∧
      s'.reg R_R7 = (a + 1) % 65536 ∧
      (bits w 11 11 = 1 →
        s'.reg R_PC = (a + 1 + sign_extend (bits w 10 0) 11) % 65536) ∧
      (bits w 11 11 = 0 → s'.reg R_PC = s'.reg (bits w 8 6)) ∧
      (∀ i, i ≤ 6 → s'.reg i = s.reg i) ∧
      s'.reg R_COND = s.reg R_COND ∧
      s'.memory = s.memory := by
  obtain ⟨hr, hm, _⟩ := hwt
  subst hpc
  subst hw
  have hlt := hm (s.reg R_PC)
  have hop2 : s.memory (s.reg R_PC) >>> 12 = OP_JSR := by
    rw [Nat.shiftRight_eq_div_pow]
    simp only [bits, OP_JSR, Nat.reducePow, Nat.reduceSub, Nat.reduceAdd] at hop ⊢
    omega
  refine ⟨_, main_step_jsr s hk ha hop2, ?_, ?_, ?_, ?_, ?_, ?_⟩
  · rw [jsr_reg, if_neg (by decide), if_pos rfl]
    simp [reg_set, u16]
  · intro h11
    rw [jsr_reg, if_pos rfl]
    simp only [h11, if_true, reg_set, u16, if_true]
    omega
  · intro h11
    have hb : bits (s.memory (s.reg R_PC)) 8 6 < 8 := bits_lt_eight _ 6
    have h1 : ¬ bits (s.memory (s.reg R_PC)) 11 11 = 1 := by omega
    rw [jsr_reg, if_pos rfl, jsr_reg, if_neg h1]
    simp only [reg_set, u16, R_PC, R_R7] at hb ⊢
    by_cases h7 : bits (s.memory (s.reg 8)) 8 6 = 7
    · simp [h7]
    · have h8 : bits (s.memory (s.reg 8)) 8 6 ≠ 8 := by omega
      simp [h7, h8, Nat.mod_eq_of_lt (hr _)]
  · intro i hi
    rw [jsr_reg, if_neg (by simp only [R_PC]; omega), if_neg (by simp only [R_R7]; omega)]
    simp only [reg_set, R_PC]
    rw [if_neg (by omega)]
  · rw [jsr_reg, if_neg (by decide), if_neg (by decide)]
    simp [reg_set, R_COND, R_PC]
  · rw [(jsr_rest _).1]
    rfl

/-- Witness for C5 (as amended): `JSR #-2` at 0x3000 leaves R7 = 0x3001 and
PC = 0x2FFF. -/
theorem jsr_step_spec_witness :
    ∃ s', main_step example_jsr = .ok (s', none) ∧ s'.reg R_R7 = 0x3001 ∧
      s'.reg R_PC = 0x2FFF :=
  match jsr_step_spec example_jsr 0x3000 0x4FFE
      (well_typed_machine_of _ _ _ (by decide) (by decide) (by decide))
      rfl (by decide) (by decide) rfl (by decide) with
  | ⟨s', h, h7, hpc, _⟩ => ⟨s', h, h7, (hpc (by decide)).trans (by decide)⟩

/-- Counterexample to C5 as stated: PC points at the word of `JSR #1` stored
at the keyboard-status address 0xFE00.  The fetch polls the keyboard, finds no
key, overwrites the cell with 0 and returns 0, so the step executes a BR that
does nothing: R7 stays 0 instead of becoming 0xFE01, PC becomes 0xFE01
instead of 0xFE02, and memory has changed.  With a key waiting the fetched
word is 0x8000 and the step leaves through `return 1`, R7 still 0. -/
theorem jsr_step_at_kbsr :
    well_typed example_jsr_kbsr ∧
    example_jsr_kbsr.reg R_PC = 0xFE00 ∧ example_jsr_kbsr.memory 0xFE00 = 0x4801 ∧
    bits 0x4801 15 12 = OP_JSR ∧ bits 0x4801 11 11 = 1 ∧
    (∃ s', main_step example_jsr_kbsr = .ok (s', none) ∧
      s'.reg R_R7 = 0 ∧ s'.reg R_R7 ≠ (0xFE00 + 1) % 65536 ∧
      s'.reg R_PC = 0xFE01 ∧
      s'.reg R_PC ≠ (0xFE00 + 1 + sign_extend (bits 0x4801 10 0) 11) % 65536 ∧
      s'.memory 0xFE00 = 0 ∧ s'.memory 0xFE00 ≠ example_jsr_kbsr.memory 0xFE00) ∧
    (∃ s', main_step example_jsr_kbsr_key = .ok (s', some 1) ∧
      s'.reg R_R7 = 0 ∧ s'.reg R_R7 ≠ (0xFE00 + 1) % 65536 ∧
      s'.memory 0xFE00 = 0x8000) :=
  ⟨well_typed_machine_of _ _ _ (by decide) (by decide) (by decide),
    by decide, by decide, by decide, by decide,
    ⟨_, rfl, by decide, by decide, by decide, by decide, by decide, by decide⟩,
    ⟨_, rfl, by decide, by decide, by decide⟩⟩

/-- LD and LDR on an effective address that is a cell of the array and not
the keyboard-status address: `reg[dest] = memory[EA]`, COND is the flag of
that value, and PC, the other general registers and memory are unchanged
(also when dest is the base register of LDR). -/
theorem ld_ldr_inside_spec (s : Machine) (hwt : well_typed s) :
    (ea_pc s ≠ MR_KBSR → ea_pc s < UINT16_MAX →
      ∃ s', ld s = .ok s' ∧
        s'.reg (bits s.instr 11 9) = s.memory (ea_pc s) ∧
        s'.reg R_COND = flag_of (s.memory (ea_pc s)) ∧
        (∀ i, i ≠ bits s.instr 11 9 → i ≠ R_COND → s'.reg i = s.reg i) ∧
        s'.memory = s.memory) ∧
    (ea_base s ≠ MR_KBSR → ea_base s < UINT16_MAX →
      ∃ s', ldr s = .ok s' ∧
        s'.reg (bits s.instr 11 9) = s.memory (ea_base s) ∧
        s'.reg R_COND = flag_of (s.memory (ea_base s)) ∧
        (∀ i, i ≠ bits s.instr 11 9 → i ≠ R_COND → s'.reg i = s.reg i) ∧
        s'.memory = s.memory) := by
  have hd : bits s.instr 11 9 < 8 := bits_lt_eight s.instr 9
  constructor
  · intro hk hb
    have h := load_result s _ _ hd (hwt.2.1 (ea_pc s))
    exact ⟨_, ld_inside s hk hb, h.1, h.2.1, h.2.2.1, h.2.2.2.1⟩
  · intro hk hb
    have h := load_result s _ _ hd (hwt.2.1 (ea_base s))
    exact ⟨_, ldr_inside s hk hb, h.1, h.2.1, h.2.2.1, h.2.2.2.1⟩

/-- C6 at the address the code misses: LD R0,#255 fetched from 0xFEFF and
LDR R0,R1,#0 with R1 = 0xFFFF have effective address 0xFFFF, which is not the
keyboard-status address; both index `memory` one past its last cell, so no
value of `memory[EA]` reaches `reg[dest]`.  An in-array LD still loads. -/
theorem ld_ldr_top_address :
    well_typed example_ld_top ∧ ea_pc example_ld_top = 0xFFFF ∧
    ea_pc example_ld_top ≠ MR_KBSR ∧
    ld example_ld_top = .error Fault.outOfBounds ∧
    well_typed example_ldr_top ∧ ea_base example_ldr_top = 0xFFFF ∧
    ldr example_ldr_top = .error Fault.outOfBounds ∧
    (∃ s', ld example_ld = .ok s' ∧ s'.reg 2 = 0x8001 ∧ s'.reg R_COND = FL_NEG) :=
  ⟨well_typed_machine_of _ _ _ (by decide) (by decide) (by decide), by decide, by decide,
    ld_outside _ (by decide),
    well_typed_machine_of _ _ _ (by decide) (by decide) (by decide), by decide,
    ldr_outside _ (by decide),
    _, ld_inside example_ld (by decide) (by decide), by decide, by decide⟩

/-- LDI whose pointer cell and pointed-to cell are cells of the array other
than the keyboard-status address: `reg[dest] = memory[memory[P]]`, COND is
the flag of that value, and PC, the other general registers and memory are
unchanged. -/
theorem ldi_inside_spec (s : Machine) (hwt : well_typed s)
    (hk : ea_pc s ≠ MR_KBSR) (hb : ea_pc s < UINT16_MAX)
    (hk2 : s.memory (ea_pc s) ≠ MR_KBSR) (hb2 : s.memory (ea_pc s) < UINT16_MAX) :
    ∃ s', ldi s = .ok s' ∧
      s'.reg (bits s.instr 11 9) = s.memory (s.memory (ea_pc s)) ∧
      s'.reg R_COND = flag_of (s.memory (s.memory (ea_pc s))) ∧
      (∀ i, i ≠ bits s.instr 11 9 → i ≠ R_COND → s'.reg i = s.reg i) ∧
      s'.memory = s.memory := by
  have hd : bits s.instr 11 9 < 8 := bits_lt_eight s.instr 9
  have h := load_result s _ _ hd (hwt.2.1 (s.memory (ea_pc s)))
  exact ⟨_, ldi_inside s hk hb hk2 hb2, h.1, h.2.1, h.2.2.1, h.2.2.2.1⟩

/-- C7 at the address the code misses: LDI R0,#0 at PC = 0x3001 whose pointer
cell holds 0xFFFF.  Neither P = 0x3001 nor memory[P] = 0xFFFF is the
keyboard-status address, yet the second read indexes `memory` one past its
last cell, so `reg[dest]` does not receive `memory[memory[P]]`.  An in-array
LDI still loads through one level of indirection. -/
theorem ldi_top_address :
    well_typed example_ldi_top ∧ ea_pc example_ldi_top = 0x3001 ∧
    example_ldi_top.memory 0x3001 = 0xFFFF ∧
    ea_pc example_ldi_top ≠ MR_KBSR ∧ example_ldi_top.memory 0x3001 ≠ MR_KBSR ∧
    ldi example_ldi_top = .error Fault.outOfBounds ∧
    (∃ s', ldi example_ldi = .ok s' ∧ s'.reg 3 = 7 ∧ s'.reg R_COND = FL_POS) :=
  ⟨well_typed_machine_of _ _ _ (by decide) (by decide) (by decide), by decide, by decide,
    by decide, by decide,
    ldi_pointer_outside _ (by decide) (by decide) (by decide),
    _, ldi_inside example_ldi (by decide) (by decide) (by decide) (by decide),
    by decide, by decide⟩

/-- ST, STI and STR on a target `T` that is a cell of the array (for STI the
pointer cell is a cell of the array other than the keyboard-status address):
afterwards `memory[T] = reg[src]`, every other cell is as before, and all
registers are unchanged; `T` may be 0xFE00 or 0xFE02. -/
theorem store_inside_spec (s : Machine) (hwt : well_typed s) :
    (ea_pc s < UINT16_MAX →
      ∃ s', st s = .ok s' ∧ s'.memory (ea_pc s) = s.reg (bits s.instr 11 9) ∧
        (∀ a, a ≠ ea_pc s → s'.memory a = s.memory a) ∧ s'.reg = s.reg) ∧
    (ea_pc s ≠ MR_KBSR → ea_pc s < UINT16_MAX → s.memory (ea_pc s) < UINT16_MAX →
      ∃ s', sti s = .ok s' ∧
        s'.memory (s.memory (ea_pc s)) = s.reg (bits s.instr 11 9) ∧
        (∀ a, a ≠ s.memory (ea_pc s) → s'.memory a = s.memory a) ∧ s'.reg = s.reg) ∧
    (ea_base s < UINT16_MAX →
      ∃ s', str s = .ok s' ∧ s'.memory (ea_base s) = s.reg (bits s.instr 11 9) ∧
        (∀ a, a ≠ ea_base s → s'.memory a = s.memory a) ∧ s'.reg = s.reg) := by
  have hv : s.reg (bits s.instr 11 9) % 65536 = s.reg (bits s.instr 11 9) :=
    Nat.mod_eq_of_lt (hwt.1 _)
  refine ⟨?_, ?_, ?_⟩
  · intro hb
    refine ⟨_, (st_eq s).trans (mem_write_inside s _ _ hb), ?_, ?_, rfl⟩
    · simp [hv]
    · intro a ha; simp [ha]
  · intro hk hb hb2
    refine ⟨_, (sti_eq s hk hb).trans (mem_write_inside s _ _ hb2), ?_, ?_, rfl⟩
    · simp [hv]
    · intro a ha; simp [ha]
  · intro hb
    refine ⟨_, (str_eq s).trans (mem_write_inside s _ _ hb), ?_, ?_, rfl⟩
    · simp [hv]
    · intro a ha; simp [ha]

/-- C8 at the address the code misses: ST R0,#255 fetched from 0xFEFF,
STI R0,#0 through a pointer cell holding 0xFFFF, and STR R0,R1,#0 with
R1 = 0xFFFF all have target T = 0xFFFF and index `memory` one past its last
cell, so `memory[T]` does not receive `reg[src]`.  A store to the
keyboard-status address 0xFE00 is carried out. -/
theorem store_top_address :
    well_typed example_st_top ∧ ea_pc example_st_top = 0xFFFF ∧
    st example_st_top = .error Fault.outOfBounds ∧
    well_typed example_sti_top ∧ ea_pc example_sti_top ≠ MR_KBSR ∧
    example_sti_top.memory (ea_pc example_sti_top) = 0xFFFF ∧
    sti example_sti_top = .error Fault.outOfBounds ∧
    well_typed example_str_top ∧ ea_base example_str_top = 0xFFFF ∧
    str example_str_top = .error Fault.outOfBounds ∧
    (∃ s', str example_str_kbsr = .ok s' ∧ s'.memory 0xFE00 = 0x1234) :=
  ⟨well_typed_machine_of _ _ _ (by decide) (by decide) (by decide), by decide,
    (st_eq _).trans (mem_write_outside _ _ _ (by decide)),
    well_typed_machine_of _ _ _ (by decide) (by decide) (by decide), by decide, by decide,
    (sti_eq _ (by decide) (by decide)).trans (mem_write_outside _ _ _ (by decide)),
    well_typed_machine_of _ _ _ (by decide) (by decide) (by decide), by decide,
    (str_eq _).trans (mem_write_outside _ _ _ (by decide)),
    _, (str_eq _).trans (mem_write_inside _ _ _ (by decide)), by decide⟩

/-- C9: `lea` leaves `reg[dest] = (PC + sign_extend(bits 8-0, 9)) mod 65536`
with wraparound in both directions (PC = 0xFFFF with offset +1 gives 0,
PC = 0 with offset -1 gives 0xFFFF), sets COND to the flag of that value and
performs no memory access: memory and the input stream are unchanged, also
when the computed address is 0xFE00; the other registers are unchanged. -/
theorem lea_spec (s : Machine) :
    (lea s).reg (bits s.instr 11 9) = ea_pc s ∧
    (lea s).reg R_COND = flag_of (ea_pc s) ∧
    (s.reg R_PC = 0xFFFF → bits s.instr 8 0 = 1 → (lea s).reg (bits s.instr 11 9) = 0) ∧
    (s.reg R_PC = 0 → bits s.instr 8 0 = 0x1FF →
      (lea s).reg (bits s.instr 11 9) = 0xFFFF) ∧
    (lea s).memory = s.memory ∧ (lea s).stdin = s.stdin ∧
    (ea_pc s = MR_KBSR → (lea s).memory = s.memory ∧ (lea s).stdin = s.stdin) ∧
    (∀ i, i ≠ bits s.instr 11 9 → i ≠ R_COND → (lea s).reg i = s.reg i) := by
  have hd : bits s.instr 11 9 < 8 := bits_lt_eight s.instr 9
  have hv : ea_pc s < 65536 := Nat.mod_lt _ (by decide)
  have h := load_result s _ _ hd hv
  rw [← lea_eq] at h
  refine ⟨h.1, h.2.1, ?_, ?_, h.2.2.2.1, h.2.2.2.2, fun _ => ⟨h.2.2.2.1, h.2.2.2.2⟩,
    h.2.2.1⟩
  · intro hpc ho
    rw [h.1, ea_pc, hpc, ho]
    decide
  · intro hpc ho
    rw [h.1, ea_pc, hpc, ho]
    decide

/-- Witness for C9: LEA R0,#1 at PC = 0xFFFF gives R0 = 0 and COND = ZERO;
LEA R0,#-1 at PC = 0 gives R0 = 0xFFFF. -/
theorem lea_spec_witness :
    ((lea example_lea_up).reg 0 = 0 ∧ (lea example_lea_up).reg R_COND = FL_ZRO) ∧
    (lea example_lea_down).reg 0 = 0xFFFF :=
  ⟨⟨(lea_spec example_lea_up).2.2.1 rfl (by decide),
      (lea_spec example_lea_up).2.1.trans (by decide)⟩,
    (lea_spec example_lea_down).2.2.2.1 rfl (by decide)⟩

/-- C10: `not` leaves `reg[dest] = 0xFFFF - reg_before[src]`, sets COND to the
flag of that value and leaves PC, the other general registers and memory
unchanged; NOT R,R applied twice restores R; NOT R0,R1 with R1 = 0 gives
R0 = 0xFFFF and COND = NEGATIVE. -/
theorem not_spec (s : Machine) (hv : s.reg (bits s.instr 8 6) < 65536) :
    (LC3.not s).reg (bits s.instr 11 9) = 0xFFFF - s.reg (bits s.instr 8 6) ∧
    (LC3.not s).reg R_COND = flag_of (0xFFFF - s.reg (bits s.instr 8 6)) ∧
    (∀ i, i ≠ bits s.instr 11 9 → i ≠ R_COND → (LC3.not s).reg i = s.reg i) ∧
    (LC3.not s).memory = s.memory ∧
    (bits s.instr 11 9 = bits s.instr 8 6 →
      (LC3.not (LC3.not s)).reg (bits s.instr 11 9) = s.reg (bits s.instr 11 9)) ∧
    (s.instr = 0x907F → s.reg 1 = 0 →
      (LC3.not s).reg 0 = 0xFFFF ∧ (LC3.not s).reg R_COND = FL_NEG) := by
  have hd : bits s.instr 11 9 < 8 := bits_lt_eight s.instr 9
  have hc : 0xFFFF - s.reg (bits s.instr 8 6) < 65536 := by omega
  have h := load_result s _ _ hd hc
  rw [← not_eq s hv] at h
  have hi : (LC3.not s).instr = s.instr := by
    rw [not_eq s hv]; exact (update_flags_rest _ _).2.1
  refine ⟨h.1, h.2.1, h.2.2.1, h.2.2.2.1, ?_, ?_⟩
  · intro he
    have hv2 : (LC3.not s).reg (bits (LC3.not s).instr 8 6) < 65536 := by
      rw [hi, ← he, h.1]; exact hc
    have h2 := load_result (LC3.not s) _ _ (hi ▸ hd) (by omega :
      0xFFFF - (LC3.not s).reg (bits (LC3.not s).instr 8 6) < 65536)
    rw [← not_eq (LC3.not s) hv2, hi] at h2
    rw [h2.1, ← he, h.1, ← he]
    rw [← he] at hv
    omega
  · intro hw h1
    have b1 : bits s.instr 11 9 = 0 := by rw [hw]; decide
    have b2 : bits s.instr 8 6 = 1 := by rw [hw]; decide
    have e1 := h.1
    have e2 := h.2.1
    rw [b1, b2, h1] at e1
    rw [b2, h1] at e2
    exact ⟨e1, e2.trans (by decide)⟩

/-- Witness for C10: NOT R0,R1 with R1 = 0 gives R0 = 0xFFFF and
COND = NEGATIVE. -/
theorem not_spec_witness :
    example_not.reg (bits example_not.instr 8 6) < 65536 ∧
    (LC3.not example_not).reg 0 = 0xFFFF ∧ (LC3.not example_not).reg R_COND = FL_NEG :=
  ⟨by decide, (not_spec example_not (by decide)).2.2.2.2.2 rfl rfl⟩

/-- Reading the keyboard-status address, and reading any other cell of the
array.  With a byte `b` waiting: memory[0xFE00] = 0x8000, memory[0xFE02] = b,
exactly that byte is consumed, the value returned has bit 15 set and a read
of 0xFE02 afterwards returns `b`.  With nothing waiting: memory[0xFE00] = 0,
nothing is consumed, memory[0xFE02] is unchanged and the value returned has
bit 15 clear.  Any other cell of the array is returned as stored, memory and
input unchanged. -/
theorem mem_read_keyboard_spec (s : Machine) :
    (∀ b rest, s.stdin = b :: rest → b < 256 →
      ∃ v s', mem_read s MR_KBSR = .ok (v, s') ∧
        s'.memory MR_KBSR = 0x8000 ∧ s'.memory MR_KBDR = b ∧ b ≤ 0xFF ∧
        s'.stdin = rest ∧ bits v 15 15 = 1 ∧
        mem_read s' MR_KBDR = .ok (b, s') ∧
        (∀ a, a ≠ MR_KBSR → a ≠ MR_KBDR → s'.memory a = s.memory a) ∧
        s'.reg = s.reg) ∧
    (s.stdin = [] →
      ∃ v s', mem_read s MR_KBSR = .ok (v, s') ∧
        s'.memory MR_KBSR = 0 ∧ s'.stdin = [] ∧
        s'.memory MR_KBDR = s.memory MR_KBDR ∧ bits v 15 15 = 0 ∧
        (∀ a, a ≠ MR_KBSR → s'.memory a = s.memory a) ∧ s'.reg = s.reg) ∧
    (∀ a, a ≠ MR_KBSR → a < UINT16_MAX → mem_read s a = .ok (s.memory a, s)) := by
  refine ⟨?_, ?_, fun a hk hb => mem_read_plain s a hk hb⟩
  · intro b rest hs hb
    have hmod : b % 256 = b := Nat.mod_eq_of_lt hb
    refine ⟨_, _, mem_read_kbsr_key s b rest hs, ?_, ?_, by omega, rfl, by decide,
      ?_, ?_, rfl⟩
    · simp [MR_KBSR, MR_KBDR]
    · simp [hmod]
    · rw [mem_read_plain _ _ (by decide) (by decide)]
      simp [hmod]
    · intro a h1 h2
      simp [h1, h2]
  · intro hs
    refine ⟨_, _, mem_read_kbsr_idle s hs, ?_, hs, ?_, by decide, ?_, rfl⟩
    · simp
    · simp [MR_KBSR, MR_KBDR]
    · intro a h1
      simp [h1]

/-- C11 at the address the code misses: 0xFFFF is not the keyboard-status
address, yet `mem_read(0xFFFF)` indexes `memory` one past its last cell and
returns no stored word.  The keyboard part of the claim holds on concrete
machines: with `A`, `B` waiting the read of 0xFE00 returns 0x8000, latches
`A` into 0xFE02 and leaves `B` waiting; with nothing waiting it returns 0. -/
theorem mem_read_top_address :
    (0xFFFF : Nat) ≠ MR_KBSR ∧
    (∀ s : Machine, mem_read s 0xFFFF = .error Fault.outOfBounds) ∧
    (∃ s', mem_read example_key MR_KBSR = .ok (0x8000, s') ∧
      s'.memory MR_KBSR = 0x8000 ∧ s'.memory MR_KBDR = 0x41 ∧ s'.stdin = [0x42] ∧
      mem_read s' MR_KBDR = .ok (0x41, s')) ∧
    (∃ s', mem_read example_idle MR_KBSR = .ok (0, s') ∧
      s'.memory MR_KBSR = 0 ∧ s'.memory MR_KBDR = 9 ∧ s'.stdin = []) :=
  ⟨by decide, fun s => mem_read_outside s _ (by decide),
    ⟨_, mem_read_kbsr_key example_key 0x41 [0x42] rfl, by decide, by decide, rfl,
      mem_read_plain _ _ (by decide) (by decide)⟩,
    ⟨_, mem_read_kbsr_idle example_idle rfl, by decide, by decide, rfl⟩⟩

/-- C12: after a run of the loop in which at least one flag-affecting
instruction (ADD, AND, NOT, LD, LDI, LDR, LEA) was executed, COND is the flag
of the value `x` that the most recent of them wrote to its destination
register; a pass that executes a flag-affecting word leaves COND equal to the
flag of what it wrote, and a pass that executes any other word (store,
control flow, TRAP, or an unsupported opcode) leaves COND as it was.  The
traced loop is `main_loop` with the written value carried along. -/
theorem cond_follows_last_flag_write (n : Nat) (s s' : Machine) (r : Option Nat) (x : Nat)
    (h : main_loop_traced n s none = .ok (s', r, some x)) :
    s'.reg R_COND = flag_of x ∧
    (∀ (s0 s1 : Machine) (r1 : Option Nat), main_step s0 = .ok (s1, r1) →
      (flag_affecting s1.instr → s1.reg R_COND = flag_of (s1.reg (bits s1.instr 11 9))) ∧
      (¬ flag_affecting s1.instr → s1.reg R_COND = s0.reg R_COND)) ∧
    (main_loop_traced n s none).map (fun y => (y.1, y.2.1)) = main_loop n s :=
  ⟨(main_loop_traced_cond n s s' none (some x) r (s.reg R_COND) h
      (fun _ h0 => by cases h0) (fun _ => rfl)).1 x rfl,
    fun s0 s1 r1 h1 => main_step_cond s0 s1 r1 h1,
    main_loop_traced_erase n s none⟩

/-- Witness for C12: the program ADD R0,R0,#-1; ST R0,#5; BRn #0; HALT.  The
ADD writes 0xFFFF; after the store, the branch and the HALT have run, COND is
still NEGATIVE. -/
theorem cond_follows_last_flag_write_witness :
    ∃ s', main_loop_traced 4 example_program none = .ok (s', some 0, some 0xFFFF) ∧
      s'.reg R_COND = FL_NEG ∧ s'.memory 0x3007 = 0xFFFF :=
  ⟨_, rfl,
    (cond_follows_last_flag_write 4 example_program _ (some 0) 0xFFFF rfl).1.trans
      (by decide),
    by decide⟩

/-- C13 (as amended): from startup on, COND is 0 for as long as no
flag-affecting instruction has been executed, and once one has been executed
COND is the flag of the value last written and so exactly one of POSITIVE,
ZERO, NEGATIVE. -/
theorem cond_after_startup (image : Nat → Nat) (input : List Nat) (n : Nat)
    (s' : Machine) (r v : Option Nat)
    (h : main_loop_traced n (startup image input) none = .ok (s', r, v)) :
    (startup image input).reg R_COND = 0 ∧
    (v = none → s'.reg R_COND = 0) ∧
    (∀ x, v = some x → s'.reg R_COND = flag_of x ∧ one_flag s') := by
  have hc := main_loop_traced_cond n (startup image input) s' none v r 0 h
    (fun _ h0 => by cases h0) (fun _ => rfl)
  refine ⟨rfl, hc.2, ?_⟩
  intro x hx
  have e := hc.1 x hx
  refine ⟨e, ?_⟩
  unfold one_flag
  rw [e]
  exact flag_of_one_of x

/-- Witness for C13 (as amended): in the program ADD R0,R0,#-1; ST R0,#5;
BRn #0; HALT, COND is 0 before the ADD and NEGATIVE from then on. -/
theorem cond_after_startup_witness :
    (∃ s', main_loop_traced 0 example_program none = .ok (s', none, none) ∧
      s'.reg R_COND = 0) ∧
    (∃ s', main_loop_traced 1 example_program none = .ok (s', none, some 0xFFFF) ∧
      s'.reg R_COND = FL_NEG ∧ one_flag s') :=
  ⟨⟨_, rfl, (cond_after_startup example_image [] 0 _ none none rfl).2.1 rfl⟩,
    ⟨_, rfl,
      ((cond_after_startup example_image [] 1 _ none (some 0xFFFF) rfl).2.2
        0xFFFF rfl).1.trans (by decide),
      ((cond_after_startup example_image [] 1 _ none (some 0xFFFF) rfl).2.2
        0xFFFF rfl).2⟩⟩

/-- Counterexample to C13 as stated: in the startup state of the one-word
program HALT, with zero-filled registers and PC = 0x3000, COND is 0, which is
none of POSITIVE, ZERO, NEGATIVE; it is still 0 when the run has ended. -/
theorem startup_cond_is_zero :
    example_halt.reg R_PC = 0x3000 ∧ (∀ i, i ≤ 7 → example_halt.reg i = 0) ∧
    example_halt.reg R_COND = 0 ∧ ¬ one_flag example_halt ∧
    (∃ s', main_loop 1 example_halt = .ok (s', some 0) ∧ s'.reg R_COND = 0 ∧
      ¬ one_flag s') :=
  ⟨by decide, by decide, by decide, by decide, _, rfl, by decide, by decide⟩

/-- C14 at the address the code misses: `memory` has `UINT16_MAX` = 65535
cells, so the 16-bit address 0xFFFF is outside the array: `memory[0xFFFF]`,
`mem_read(0xFFFF)`, `mem_write(0xFFFF, v)` and the fetch at PC = 0xFFFF all
take the out-of-bounds branch, and so do a load and a store handler whose
address is 0xFFFF.  Every address below 0xFFFF is a cell of the array. -/
theorem memory_top_address_outside :
    UINT16_MAX = 65535 ∧
    (∀ s : Machine, memory_at s 0xFFFF = .error Fault.outOfBounds) ∧
    (∀ s : Machine, mem_read s 0xFFFF = .error Fault.outOfBounds) ∧
    (∀ (s : Machine) (v : Nat), mem_write s 0xFFFF v = .error Fault.outOfBounds) ∧
    (∀ s : Machine, s.reg R_PC = 0xFFFF → main_step s = .error Fault.outOfBounds) ∧
    ldr example_ldr_top = .error Fault.outOfBounds ∧
    str example_str_top = .error Fault.outOfBounds ∧
    (∀ (s : Machine) (a : Nat), a < 0xFFFF → memory_at s a = .ok (s.memory a)) := by
  refine ⟨rfl, fun s => rfl, fun s => mem_read_outside s _ (by decide),
    fun s v => mem_write_outside s _ v (by decide), ?_, ldr_outside _ (by decide),
    (str_eq _).trans (mem_write_outside _ _ _ (by decide)), ?_⟩
  · intro s hpc
    exact main_step_outside s (by rw [hpc]; decide)
  · intro s a ha
    have hb : a < UINT16_MAX := ha
    simp [memory_at, hb]

/-- C15 (as amended): for a RUNNING machine whose PC is a cell of the array
other than the keyboard-status address, one pass of the loop leaves through
`return 1` exactly when the top 4 bits of memory[PC] are 8 (RTI) or 13
(reserved); then no handler runs, the loop is over with exit status 1, and
R0..R7, COND and memory are as before the pass.  Every other opcode runs its
handler and does not abort. -/
theorem abort_step_spec (s : Machine) (hrun : s.running ≠ 0)
    (hb : s.reg R_PC < UINT16_MAX) (hk : s.reg R_PC ≠ MR_KBSR)
    (hw : s.memory (s.reg R_PC) < 65536) :
    ((opcode_of s = OP_RTI ∨ opcode_of s = OP_RES) ↔
      ∃ s', main_step s = .ok (s', some 1)) ∧
    ((opcode_of s = OP_RTI ∨ opcode_of s = OP_RES) →
      main_step s = .ok (printf (after_fetch s) abort_message, some 1) ∧
      (∀ n, main_loop (n + 1) s = .ok (printf (after_fetch s) abort_message, some 1)) ∧
      (∀ i, i ≤ 7 → (printf (after_fetch s) abort_message).reg i = s.reg i) ∧
      (printf (after_fetch s) abort_message).reg R_COND = s.reg R_COND ∧
      (printf (after_fetch s) abort_message).memory = s.memory) ∧
    (opcode_of s = OP_ADD → main_step s = .ok (add_and (after_fetch s) 0, none)) ∧
    (opcode_of s = OP_AND → main_step s = .ok (add_and (after_fetch s) 1, none)) ∧
    (opcode_of s = OP_NOT → main_step s = .ok (LC3.not (after_fetch s), none)) ∧
    (opcode_of s = OP_BR → main_step s = .ok (br (after_fetch s), none)) ∧
    (opcode_of s = OP_JMP → main_step s = .ok (jmp_ret (after_fetch s), none)) ∧
    (opcode_of s = OP_JSR → main_step s = .ok (jsr (after_fetch s), none)) ∧
    (opcode_of s = OP_LD → main_step s = (ld (after_fetch s)).bind (fun s3 => .ok (s3, none))) ∧
    (opcode_of s = OP_LDI → main_step s = (ldi (after_fetch s)).bind (fun s3 => .ok (s3, none))) ∧
    (opcode_of s = OP_LDR → main_step s = (ldr (after_fetch s)).bind (fun s3 => .ok (s3, none))) ∧
    (opcode_of s = OP_LEA → main_step s = .ok (lea (after_fetch s), none)) ∧
    (opcode_of s = OP_ST → main_step s = (st (after_fetch s)).bind (fun s3 => .ok (s3, none))) ∧
    (opcode_of s = OP_STI → main_step s = (sti (after_fetch s)).bind (fun s3 => .ok (s3, none))) ∧
    (opcode_of s = OP_STR → main_step s = (str (after_fetch s)).bind (fun s3 => .ok (s3, none))) ∧
    (opcode_of s = OP_TRAP → main_step s = (trap (after_fetch s)).bind (fun s3 => .ok (s3, none))) := by
  have hop : (after_fetch s).instr >>> 12 = opcode_of s := opcode_field _ hw
  have hstep := main_step_plain s hk hb
  obtain ⟨d1, d2, d3, d4, d5, d6, d7, d8, d9, d10, d11, d12, d13, d14, d15⟩ :=
    execute_dispatch (after_fetch s)
  rw [hop] at d1 d2 d3 d4 d5 d6 d7 d8 d9 d10 d11 d12 d13 d14 d15
  rw [← hstep] at d1 d2 d3 d4 d5 d6 d7 d8 d9 d10 d11 d12 d13 d14 d15
  refine ⟨⟨fun h => ⟨_, d15 h⟩, ?_⟩, ?_, d1, d2, d3, d4, d5, d6, d7, d8, d9, d10, d11, d12,
    d13, d14⟩
  · intro ⟨s', hs⟩
    by_contra hn
    rw [hstep] at hs
    have := execute_handled _ _ _ (by rw [hop]; exact hn) hw hs
    cases this
  · intro h
    refine ⟨d15 h, fun n => main_loop_abort n s _ 1 hrun (d15 h), ?_, rfl, rfl⟩
    intro i hi
    show (if i = R_PC then _ else s.reg i) = s.reg i
    rw [if_neg (by simp only [R_PC]; omega)]

/-- Witness for C15 (as amended): an RTI word at PC = 0x3000 ends the loop
with exit status 1, R7 and memory as before. -/
theorem abort_step_spec_witness :
    ∃ s', main_loop 5 example_rti = .ok (s', some 1) ∧ s'.reg R_R7 = 8 ∧
      s'.memory = example_rti.memory :=
  have h := (abort_step_spec example_rti (by decide) (by decide) (by decide)
    (by decide)).2.1 (Or.inl (by decide))
  ⟨_, h.2.1 4, (h.2.2.1 7 (by decide)).trans (by decide), h.2.2.2.2⟩

/-- Counterexample to C15 as stated, at PC = 0xFE00.  With the key `A`
waiting and a BR word (opcode 0) in the cell, the fetch returns 0x8000 and
the pass leaves through `return 1`, after memory[0xFE00] and memory[0xFE02]
have changed and the key has been consumed.  With no key waiting and an RTI
word (opcode 8) in the cell, the fetch returns 0 and the pass does not
abort. -/
theorem abort_step_at_kbsr :
    (example_fetch_kbsr_key.running ≠ 0 ∧ example_fetch_kbsr_key.reg R_PC = 0xFE00 ∧
      opcode_of example_fetch_kbsr_key = OP_BR ∧
      ∃ s', main_step example_fetch_kbsr_key = .ok (s', some 1) ∧
        s'.memory 0xFE00 = 0x8000 ∧ example_fetch_kbsr_key.memory 0xFE00 = 0 ∧
        s'.memory 0xFE02 = 0x41 ∧ example_fetch_kbsr_key.memory 0xFE02 = 0 ∧
        s'.stdin = []) ∧
    (example_fetch_kbsr_rti.running ≠ 0 ∧ example_fetch_kbsr_rti.reg R_PC = 0xFE00 ∧
      opcode_of example_fetch_kbsr_rti = OP_RTI ∧
      ∃ s', main_step example_fetch_kbsr_rti = .ok (s', none) ∧
        s'.memory 0xFE00 = 0) :=
  ⟨⟨by decide, by decide, by decide, _, rfl, by decide, by decide, by decide, by decide,
      rfl⟩,
    ⟨by decide, by decide, by decide, _, rfl, by decide⟩⟩

/-- C16 (as amended): with PC = 0x3000 pointing at the HALT word 0xF025, a
RUNNING machine is HALTED after exactly one pass of the loop and `main`
returns 0; the pass changes `running` and advances PC to 0x3001, and leaves
R0..R7, COND, every memory word and both console streams as they were. -/
theorem halt_program_spec (s : Machine) (hrun : s.running ≠ 0)
    (hpc : s.reg R_PC = PC_START) (hm : s.memory PC_START = 0xF025) :
    ∃ s', main_step s = .ok (s', none) ∧ s'.running = 0 ∧
      main_loop 0 s = .ok (s, none) ∧
      (∀ n, main_loop (n + 1) s = .ok (s', some 0)) ∧
      (∀ i, i ≠ R_PC → s'.reg i = s.reg i) ∧ s'.reg R_PC = 0x3001 ∧
      s'.memory = s.memory ∧ s'.stdin = s.stdin ∧ s'.stdout = s.stdout := by
  have hk : s.reg R_PC ≠ MR_KBSR := by rw [hpc]; decide
  have hb : s.reg R_PC < UINT16_MAX := by rw [hpc]; decide
  have hi : (after_fetch s).instr = 0xF025 := by
    show s.memory (s.reg R_PC) = 0xF025
    rw [hpc, hm]
  have hop : (after_fetch s).instr >>> 12 = OP_TRAP := by rw [hi]; decide
  have hcode : bits (after_fetch s).instr 7 0 = TRAP_HALT := by rw [hi]; decide
  have hstep : main_step s = .ok (trap_halt (after_fetch s), none) := by
    rw [main_step_plain s hk hb, (execute_dispatch _).2.2.2.2.2.2.2.2.2.2.2.2.2.1 hop,
      trap_halt_code _ hcode]
    rfl
  refine ⟨_, hstep, rfl, ?_, ?_, ?_, ?_, rfl, rfl, rfl⟩
  · simp [main_loop, hrun, pure, Except.pure]
  · intro n
    rw [main_loop_succ n s _ hrun hstep]
    exact main_loop_stopped n _ rfl
  · intro i hi
    show (if i = R_PC then _ else s.reg i) = s.reg i
    rw [if_neg hi]
  · show (if R_PC = R_PC then u16 (s.reg R_PC + 1) else s.reg R_PC) = 0x3001
    rw [if_pos rfl, hpc]
    decide

/-- Witness for C16 (as amended): the one-word program HALT at startup. -/
theorem halt_program_spec_witness :
    ∃ s', main_loop 1 example_halt = .ok (s', some 0) ∧ s'.running = 0 ∧
      s'.reg R_PC = 0x3001 ∧ s'.memory = example_halt.memory :=
  match halt_program_spec example_halt (by decide) rfl rfl with
  | ⟨s', _, hr, _, hl, _, hp, hmem, _⟩ => ⟨s', hl 0, hr, hp, hmem⟩

/-- Counterexample to C16 as stated: for the one-word program HALT the pass
that halts the machine also changes PC, from 0x3000 to 0x3001. -/
theorem halt_step_moves_pc :
    example_halt.memory 0x3000 = 0xF025 ∧ example_halt.reg R_PC = 0x3000 ∧
    ∃ s', main_step example_halt = .ok (s', none) ∧ s'.running = 0 ∧
      s'.reg R_PC = 0x3001 ∧ s'.reg R_PC ≠ example_halt.reg R_PC :=
  ⟨by decide, by decide, _, rfl, by decide, by decide, by decide⟩

/-- C17: a TRAP word whose low 8 bits are none of the six service codes
0x20..0x25 makes `trap` a no-op: the machine (R0..R7, PC, COND, memory,
`running`, input and output) is returned unchanged, and the loop stays
RUNNING and goes on with the next instruction.  The routine is selected by
the low 8 bits alone. -/
theorem trap_unknown_code_ignored (s : Machine)
    (h : ¬ known_trap_code (bits s.instr 7 0)) :
    trap s = .ok s ∧
    (∀ s2 : Machine, trap s2 = trap_routine (bits s2.instr 7 0) s2) ∧
    (∀ s0 : Machine, s0.running ≠ 0 → s0.reg R_PC < UINT16_MAX → s0.reg R_PC ≠ MR_KBSR →
      s0.memory (s0.reg R_PC) < 65536 → opcode_of s0 = OP_TRAP →
      ¬ known_trap_code (bits (s0.memory (s0.reg R_PC)) 7 0) →
      main_step s0 = .ok (after_fetch s0, none) ∧
      (after_fetch s0).running = s0.running ∧
      (∀ n, main_loop (n + 1) s0 = main_loop n (after_fetch s0))) := by
  refine ⟨trap_unknown s h, trap_eq_routine, ?_⟩
  intro s0 hrun hb hk hw hop hcode
  have hop2 : (after_fetch s0).instr >>> 12 = OP_TRAP := (opcode_field _ hw).trans hop
  have hcode2 : ¬ known_trap_code (bits (after_fetch s0).instr 7 0) := hcode
  have hstep : main_step s0 = .ok (after_fetch s0, none) := by
    rw [main_step_plain s0 hk hb,
      (execute_dispatch (after_fetch s0)).2.2.2.2.2.2.2.2.2.2.2.2.2.1 hop2,
      trap_unknown (after_fetch s0) hcode2]
    rfl
  exact ⟨hstep, rfl, fun n => main_loop_succ n s0 _ hrun hstep⟩

/-- Witness for C17: the word 0xFF26 (code 0x26, bits 11-8 all set) changes
nothing. -/
theorem trap_unknown_code_ignored_witness :
    ¬ known_trap_code (bits example_trap_unknown.instr 7 0) ∧
    trap example_trap_unknown = .ok example_trap_unknown :=
  ⟨by decide, (trap_unknown_code_ignored example_trap_unknown (by decide)).1⟩

/-- C18: when the first zero word at or after the address in R0 is at `k`,
inside the array, PUTS terminates and appends to the output exactly the low
bytes of memory[R0], ..., memory[k-1], in order, one per word; it emits
nothing when memory[R0] = 0, depends on no word past `k`, and leaves
registers and memory unchanged.  The words `A`, `B`, 0 give the output
`AB`. -/
theorem trap_puts_spec (s : Machine) (k : Nat) (h0 : s.reg R_R0 ≤ k)
    (hk : k < UINT16_MAX) (hz : s.memory k = 0)
    (hmin : ∀ j, s.reg R_R0 ≤ j → j < k → s.memory j ≠ 0) :
    trap_puts s = .ok { s with
      stdout := s.stdout ++ puts_bytes s.memory (s.reg R_R0) (k - s.reg R_R0) } ∧
    (puts_bytes s.memory (s.reg R_R0) (k - s.reg R_R0)).length = k - s.reg R_R0 ∧
    (∀ i, i < k - s.reg R_R0 →
      (puts_bytes s.memory (s.reg R_R0) (k - s.reg R_R0))[i]?
        = some (bits (s.memory (s.reg R_R0 + i)) 7 0)) ∧
    (s.memory (s.reg R_R0) = 0 → trap_puts s = .ok s) ∧
    (∀ m2 : Nat → Nat, (∀ a, a ≤ k → m2 a = s.memory a) →
      trap_puts { s with memory := m2 } = .ok { s with
        memory := m2,
        stdout := s.stdout ++ puts_bytes s.memory (s.reg R_R0) (k - s.reg R_R0) }) ∧
    (k = s.reg R_R0 + 2 → s.memory (s.reg R_R0) = 0x41 →
      s.memory (s.reg R_R0 + 1) = 0x42 →
      trap_puts s = .ok { s with stdout := s.stdout ++ [0x41, 0x42] }) := by
  have hmain := trap_puts_ok s k h0 hk hz hmin
  refine ⟨hmain, ?_, ?_, ?_, ?_, ?_⟩
  · simp [puts_bytes]
  · intro i hi
    simp [puts_bytes, List.getElem?_map, List.getElem?_range', hi]
  · intro hzero
    have hk0 : k = s.reg R_R0 := by
      by_contra hne
      exact hmin (s.reg R_R0) (Nat.le_refl _) (by omega) hzero
    rw [hmain, hk0]
    simp [puts_bytes]
  · intro m2 hm2
    have h := trap_puts_ok { s with memory := m2 } k h0 hk
      ((hm2 k (Nat.le_refl k)).trans hz)
      (fun j h1 h2 => by
        show m2 j ≠ 0
        rw [hm2 j (by omega)]
        exact hmin j h1 h2)
    rw [h]
    have hc : puts_bytes m2 (s.reg R_R0) (k - s.reg R_R0)
        = puts_bytes s.memory (s.reg R_R0) (k - s.reg R_R0) :=
      puts_bytes_congr s.memory m2 _ _ (fun a _ h2 => hm2 a (by omega))
    show Except.ok { s with memory := m2, stdout := s.stdout ++ puts_bytes m2 _ _ } = _
    rw [hc]
  · intro hk2 hA hB
    rw [hmain, hk2]
    have hd : s.reg R_R0 + 2 - s.reg R_R0 = 2 := by omega
    rw [hd]
    simp [puts_bytes, List.range'_succ, hA, hB, bits]

/-- Witness for C18: R0 = 0x4000 points at `A`, `B`, 0; the output is `AB`
and the word after the terminator is not read. -/
theorem trap_puts_spec_witness :
    trap_puts example_puts = .ok { example_puts with stdout := [0x41, 0x42] } :=
  (trap_puts_spec example_puts 0x4002 (by decide) (by decide) (by decide)
    (fun j h1 h2 => by
      have h1 : 0x4000 ≤ j := h1
      interval_cases j <;> decide)).2.2.2.2.2 (by decide) (by decide) (by decide)

/-- C19: when the first zero word at or after the address in R0 is at `k`,
inside the array, PUTSP terminates and appends to the output, for each of the
`n = k - R0` words before the terminator in order, the low byte of the word
(also when it is 0) followed by the high byte exactly when the high byte is
not zero; the output grows by between `n` and `2n` bytes, and registers and
memory are unchanged. -/
theorem trap_putsp_spec (s : Machine) (k : Nat) (h0 : s.reg R_R0 ≤ k)
    (hk : k < UINT16_MAX) (hz : s.memory k = 0)
    (hmin : ∀ j, s.reg R_R0 ≤ j → j < k → s.memory j ≠ 0) :
    trap_putsp s = .ok { s with
      stdout := s.stdout ++ putsp_bytes s.memory (s.reg R_R0) (k - s.reg R_R0) } ∧
    (∀ p d, putsp_bytes s.memory p (d + 1)
      = putsp_word (s.memory p) ++ putsp_bytes s.memory (p + 1) d) ∧
    (∀ w, (bits w 15 8 ≠ 0 → putsp_word w = [bits w 7 0, bits w 15 8]) ∧
      (bits w 15 8 = 0 → putsp_word w = [bits w 7 0])) ∧
    k - s.reg R_R0 ≤ (putsp_bytes s.memory (s.reg R_R0) (k - s.reg R_R0)).length ∧
    (putsp_bytes s.memory (s.reg R_R0) (k - s.reg R_R0)).length
      ≤ 2 * (k - s.reg R_R0) := by
  refine ⟨trap_putsp_ok s k h0 hk hz hmin, fun _ _ => rfl, ?_,
    (putsp_bytes_length _ _ _).1, (putsp_bytes_length _ _ _).2⟩
  intro w
  constructor
  · intro h; rw [putsp_word, if_pos h]
  · intro h; rw [putsp_word, if_neg (by simpa using h)]

/-- Witness for C19: the words 0x4241, 0x0043, 0x4400, 0 give the five bytes
`A`, `B`, `C`, 0, `D`. -/
theorem trap_putsp_spec_witness :
    trap_putsp example_putsp
      = .ok { example_putsp with stdout := [0x41, 0x42, 0x43, 0x00, 0x44] } :=
  (trap_putsp_spec example_putsp 0x4003 (by decide) (by decide) (by decide)
    (fun j h1 h2 => by
      have h1 : 0x4000 ≤ j := h1
      interval_cases j <;> decide)).1

/-- C20: executing JSRR (opcode 4, bit 11 = 0) fetched at address `a` stores
the return address (a + 1) mod 65536 in R7 before it reads the base register.
With base R7 both R7 and PC end up equal to (a + 1) mod 65536, whatever R7
held before, so execution falls through to the next instruction; with any
other base register PC becomes the value that register held before the
instruction. -/
theorem jsrr_spec (s s1 : Machine) (a w : Nat) (hwt : well_typed s)
    (hpc : s.reg R_PC = a)
    (hf : mem_read (reg_set s R_PC (a + 1)) a = .ok (w, s1))
    (hop : w >>> 12 = OP_JSR) (h11 : bits w 11 11 = 0) :
    ∃ s', main_step s = .ok (s', none) ∧
      s'.reg R_R7 = (a + 1) % 65536 ∧
      (bits w 8 6 = R_R7 → s'.reg R_PC = (a + 1) % 65536 ∧ s'.reg R_PC = s'.reg R_R7) ∧
      (bits w 8 6 ≠ R_R7 → s'.reg R_PC = s.reg (bits w 8 6)) := by
  subst hpc
  have hreg : s1.reg = (reg_set s R_PC (s.reg R_PC + 1)).reg := (mem_read_frame _ _ _ _ hf).1
  have hstep : main_step s = .ok (jsr { s1 with instr := w }, none) := by
    rw [main_step_fetch s s1 w hf, (execute_dispatch { s1 with instr := w }).2.2.2.2.2.1 hop]
  have h1 : ¬ bits w 11 11 = 1 := by omega
  have hb : bits w 8 6 < 8 := bits_lt_eight w 6
  have hpc1 : s1.reg R_PC = (s.reg R_PC + 1) % 65536 := by
    rw [hreg, reg_set_reg, if_pos rfl]
  have h7 : (jsr { s1 with instr := w }).reg R_R7 = (s.reg R_PC + 1) % 65536 := by
    rw [jsr_reg, if_neg (by decide), if_pos rfl]
    show s1.reg R_PC % 65536 = _
    rw [hpc1]
    omega
  refine ⟨_, hstep, h7, ?_, ?_⟩
  · intro hbase
    have hp : (jsr { s1 with instr := w }).reg R_PC = (s.reg R_PC + 1) % 65536 := by
      rw [jsr_reg, if_pos rfl]
      show (if bits w 11 11 = 1 then _ else if bits w 8 6 = R_R7 then
        s1.reg R_PC % 65536 % 65536 else _) = _
      rw [if_neg h1, if_pos hbase, hpc1]
      omega
    exact ⟨hp, hp.trans h7.symm⟩
  · intro hbase
    rw [jsr_reg, if_pos rfl]
    show (if bits w 11 11 = 1 then _ else if bits w 8 6 = R_R7 then _
      else s1.reg (bits w 8 6) % 65536) = _
    rw [if_neg h1, if_neg hbase, hreg, reg_set_reg,
      if_neg (by simp only [R_PC]; omega), Nat.mod_eq_of_lt (hwt.1 _)]

/-- Witness for C20: JSRR R7 at 0x3000 with R7 = 0x5000 leaves R7 = PC =
0x3001; JSRR R2 at 0x3000 with R2 = 0x6000 leaves PC = 0x6000. -/
theorem jsrr_spec_witness :
    (∃ s', main_step example_jsrr_r7 = .ok (s', none) ∧ s'.reg R_R7 = 0x3001 ∧
      s'.reg R_PC = 0x3001) ∧
    (∃ s', main_step example_jsrr_r2 = .ok (s', none) ∧ s'.reg R_R7 = 0x3001 ∧
      s'.reg R_PC = 0x6000) :=
  ⟨match jsrr_spec example_jsrr_r7 _ 0x3000 0x41C0
        (well_typed_machine_of _ _ _ (by decide) (by decide) (by decide))
        rfl rfl (by decide) (by decide) with
    | ⟨s', h, h7, hb, _⟩ => ⟨s', h, h7, (hb (by decide)).1⟩,
   match jsrr_spec example_jsrr_r2 _ 0x3000 0x4080
        (well_typed_machine_of _ _ _ (by decide) (by decide) (by decide))
        rfl rfl (by decide) (by decide) with
    | ⟨s', h, h7, _, hb⟩ => ⟨s', h, h7, (hb (by decide)).trans (by decide)⟩⟩

end LC3
